import Mathlib

/-!
FlatEarth: the bounded image cache and the fetch coordinator

A shallow embedding of `src/src/ImageCache.cpp`, `src/src/ImageDownloader.cpp`
and the constants of `src/include/config.h`.

* The flash store (`SPIFFS`) is a list of named byte blobs plus the `/cache`
  directory marker.
* Everything the platform decides where the source tests for it (the space
  readings, whether a mount, an open, a write, an allocation, a deletion or a
  GET succeeds) is an input of each call, the records `Platform`, `Mount` and
  `Http`; nothing is assumed about it unless a theorem says so. Calls whose
  result the source never looks at (`file.read`, `file.close`) do what they
  are for.
* `size_t` is the 32-bit unsigned type of the ESP32 target; the `double`
  product of the space check is modelled bit-exactly (round to nearest, ties
  to even, 53-bit significand).
-/

namespace FlatEarth

/-! ## config.h -/

/-- Macro `#define DEBUG_ENABLED true` -/
def DEBUG_ENABLED : Bool := true

/-- Macro `#define DELETE_ALL` (the macro is defined, so the guarded line is compiled). -/
def DELETE_ALL : Bool := true

/-- Macro `#define NROFIMAGES_GOES 72` -/
def NROFIMAGES_GOES : Nat := 72

/-- Macro `#define NROFIMAGES_ELEKTROL 48` -/
def NROFIMAGES_ELEKTROL : Nat := 48

/-- Macro `#define NROFIMAGES_EPIC 24` -/
def NROFIMAGES_EPIC : Nat := 24

/-- Macro `#define NROFIMAGESTOSHOW NROFIMAGES_ELEKTROL` -/
def NROFIMAGESTOSHOW : Nat := NROFIMAGES_ELEKTROL

/-- Macro `#define CACHE_SIZE 144` -/
def CACHE_SIZE : Nat := 144

/-- The three satellite types `GOES_EAST 0`, `GOES_WEST 1`, `ELEKTROL 2`. -/
inductive SatType where
  | GOES_EAST
  | GOES_WEST
  | ELEKTROL
  deriving DecidableEq, Repr

/-- Macro `#define SATTYPE ELEKTROL` -/
def SATTYPE : SatType := SatType.ELEKTROL

/-- Constant `HTTP_CODE_OK` of the HTTP client library. -/
def HTTP_CODE_OK : Int := 200

/-- One more than the largest `size_t` of the 32-bit target. -/
def SIZE_T_MOD : Nat := 2 ^ 32

/-! ## IEEE-754 binary64, as far as `totalBytes() * 0.9` needs it -/

/-- A non-negative finite double, read as `mant * 2 ^ exp`. -/
structure Double where
  mant : Nat
  exp : Int
  deriving DecidableEq, Repr

/-- The number of low bits of `n` that do not fit a 53-bit significand: the
least `j` (searched upwards from the given start) with `n < 2 ^ (53 + j)`. -/
def excessBits (n : Nat) : Nat → Nat → Nat
  | 0, j => j
  | fuel + 1, j => if n < 2 ^ (53 + j) then j else excessBits n fuel (j + 1)

/-- The double nearest to `n * 2 ^ e`, ties to the even significand. -/
def roundNearestEven (n : Nat) (e : Int) : Double :=
  let j := excessBits n n 0
  let q := n / 2 ^ j
  let r := n % 2 ^ j
  let up := decide (2 ^ j < 2 * r) || (decide (2 * r = 2 ^ j) && decide (q % 2 = 1))
  ⟨if up then q + 1 else q, e + j⟩

/-- Conversion of an unsigned integer to double. -/
def Double.ofNat (n : Nat) : Double := roundNearestEven n 0

/-- Double multiplication: the exact product, rounded once. -/
def Double.mul (a b : Double) : Double :=
  roundNearestEven (a.mant * b.mant) (a.exp + b.exp)

/-- The comparison `a < b` of two doubles, by value. -/
def Double.lt (a b : Double) : Bool :=
  let m := min a.exp b.exp
  decide (a.mant * 2 ^ (a.exp - m).toNat < b.mant * 2 ^ (b.exp - m).toNat)

/-- The literal `0.9`: the double `0x3FECCCCCCCCCCCCD`. -/
def POINT_NINE : Double := ⟨8106479329266893, -53⟩

/-- The test `usedBytes + imageSize > totalBytes * 0.9` of `cacheImage`: the
left side is a `size_t` sum, the literal `0.9` is a `double`, and both sides
are compared as doubles. -/
def spaceLow (usedBytes imageSize totalBytes : Nat) : Bool :=
  Double.lt (Double.mul (Double.ofNat totalBytes) POINT_NINE)
    (Double.ofNat ((usedBytes + imageSize) % SIZE_T_MOD))

/-! ## The flash store -/

/-- A byte of an image. -/
abbrev Byte := Fin 256

/-- The flat SPIFFS store: named blobs, and whether the `/cache` directory
object has been made. -/
structure SPIFFS where
  files : List (String × List Byte)
  cacheDir : Bool
  deriving DecidableEq, Repr

/-- The content stored under a name, if any. -/
def lookupFile (path : String) : List (String × List Byte) → Option (List Byte)
  | [] => none
  | f :: rest => if f.1 = path then some f.2 else lookupFile path rest

/-- The blobs of the store without those named `path`. -/
def dropFile (path : String) : List (String × List Byte) → List (String × List Byte)
  | [] => []
  | f :: rest => if f.1 = path then dropFile path rest else f :: dropFile path rest

/-- The blob stored under `path`. -/
def SPIFFS.read (fs : SPIFFS) (path : String) : Option (List Byte) :=
  lookupFile path fs.files

/-- Call `SPIFFS.exists(path)`: a blob of that name, or the directory `/cache`. -/
def SPIFFS.pathExists (fs : SPIFFS) (path : String) : Bool :=
  (fs.read path).isSome || (fs.cacheDir && decide (path = "/cache"))

/-- Call `SPIFFS.mkdir(path)`; `ok` is whether the platform carries it out. The
store is flat: `/cache` is the one directory it records. -/
def SPIFFS.mkdir (fs : SPIFFS) (path : String) (ok : Bool) : SPIFFS :=
  if ok && decide (path = "/cache") then { fs with cacheDir := true } else fs

/-- Call `SPIFFS.remove(path)` when the deletion is carried out. -/
def SPIFFS.remove (fs : SPIFFS) (path : String) : SPIFFS :=
  { fs with files := dropFile path fs.files }

/-- Call `SPIFFS.open(path, "w", true)` followed by a write of `data`: the blob is
created, or replaced when it was there. -/
def SPIFFS.create (fs : SPIFFS) (path : String) (data : List Byte) : SPIFFS :=
  { fs with files := (path, data) :: dropFile path fs.files }

/-- The store after `SPIFFS.format()`. -/
def SPIFFS.formatted : SPIFFS := ⟨[], false⟩

/-- What the platform answers during one call. -/
structure Platform where
  /-- Call `SPIFFS.usedBytes()` -/
  usedBytes : Nat
  /-- Call `SPIFFS.totalBytes()` -/
  totalBytes : Nat
  /-- whether `SPIFFS.mkdir` is carried out (a flat SPIFFS may refuse) -/
  mkdir : Bool
  /-- whether `SPIFFS.open(path, "w", true)` yields a file -/
  openWrite : String → Bool
  /-- the return value of `file.write(buffer, n)`, for each `n` -/
  write : Nat → Nat
  /-- whether `SPIFFS.open(path, "r")` yields a file -/
  openRead : String → Bool
  /-- whether `malloc(n)` returns a block -/
  malloc : Nat → Bool
  /-- whether `SPIFFS.remove(path)` of a present file succeeds -/
  remove : String → Bool

/-! ## ImageCache.h and the globals of main.cpp -/

/-- Record `struct CacheEntry { String timestamp; bool valid; }` -/
structure CacheEntry where
  timestamp : String
  valid : Bool
  deriving DecidableEq, Repr

/-- The cache object, the store it writes to, and the shared image buffer. -/
structure Device where
  /-- the flash store -/
  fs : SPIFFS
  /-- Field `CacheEntry entries[CACHE_SIZE]`, as the memory cell at each index -/
  entries : Nat → CacheEntry
  /-- Field `int writeIndex` -/
  writeIndex : Nat
  /-- Field `uint8_t *imageBuffer`; `none` is the null pointer -/
  imageBuffer : Option (List Byte)
  /-- Field `size_t imageSize` -/
  imageSize : Nat

/-- The objects as static initialisation leaves them, over a given store. -/
def Device.boot (fs : SPIFFS) : Device :=
  { fs := fs, entries := fun _ => ⟨"", false⟩, writeIndex := 0,
    imageBuffer := none, imageSize := 0 }

/-- What the mount calls of `begin` answer. -/
structure Mount where
  /-- Call `SPIFFS.begin(true)` -/
  first : Bool
  /-- Call `SPIFFS.format()` -/
  format : Bool
  /-- Call `SPIFFS.begin()` after the format -/
  second : Bool

/-- The loop `for (i = 0; i < CACHE_SIZE; i++) entries[i].valid = false`, run
for `n` indices from `i`. -/
def invalidateFrom (entries : Nat → CacheEntry) : Nat → Nat → Nat → CacheEntry
  | 0, _ => entries
  | n + 1, i =>
    invalidateFrom (Function.update entries i { entries i with valid := false }) n (i + 1)

/-- Function `ImageCache::begin` -/
def begin (m : Mount) (d : Device) : Bool × Device :=
  if !m.first then
    if !m.format then (false, d)
    else if !m.second then (false, { d with fs := SPIFFS.formatted })
    else (true, { d with fs := SPIFFS.formatted,
                         entries := invalidateFrom d.entries CACHE_SIZE 0 })
  else (true, { d with entries := invalidateFrom d.entries CACHE_SIZE 0 })

/-- The string `ImageCache::getCachePath` returns. -/
def blobPath (timestamp : String) : String := "/cache/" ++ timestamp ++ ".jpg"

/-- Function `ImageCache::getCachePath`: the path, and the store after the directory
check. -/
def getCachePath (p : Platform) (timestamp : String) (fs : SPIFFS) : String × SPIFFS :=
  (blobPath timestamp,
   if !fs.pathExists "/cache" then fs.mkdir "/cache" p.mkdir else fs)

/-- The listing loop of `cleanup` under `DELETE_ALL`: the root of the flat
store lists every blob, and each listed path is removed when the platform
carries the deletion out. -/
def sweepRoot (p : Platform) (fs : SPIFFS) : SPIFFS :=
  (fs.files.map Prod.fst).foldl (fun acc path => if p.remove path then acc.remove path else acc) fs

/-- One turn of the loop over the ring in `cleanup`, at index `i`; the second
component is `filesRemoved`. -/
def cleanupSlot (p : Platform) (i : Nat) (st : Device × Nat) : Device × Nat :=
  if !(st.1.entries i).valid then st
  else
    let path := (getCachePath p (st.1.entries i).timestamp st.1.fs).1
    let fs := (getCachePath p (st.1.entries i).timestamp st.1.fs).2
    let removed := fs.pathExists path && p.remove path
    ({ st.1 with
        fs := if removed then fs.remove path else fs,
        entries := Function.update st.1.entries i { st.1.entries i with valid := false } },
     if removed then st.2 + 1 else st.2)

/-- The loop `for (i = 0; i < CACHE_SIZE; i++)` of `cleanup`, run for `n`
indices from `i`. -/
def cleanupLoop (p : Platform) : Nat → Nat → Device × Nat → Device × Nat
  | 0, _, st => st
  | n + 1, i, st => cleanupLoop p n (i + 1) (cleanupSlot p i st)

/-- Function `ImageCache::cleanup`; the second component is the `filesRemoved` it
prints. -/
def cleanup (p : Platform) (d : Device) : Device × Nat :=
  let d1 := if DEBUG_ENABLED && DELETE_ALL then { d with fs := sweepRoot p d.fs } else d
  let r := cleanupLoop p CACHE_SIZE 0 (d1, 0)
  ({ r.1 with writeIndex := 0 }, r.2)

/-- The outcome of `cacheImage`: the value returned, whether the space check
ran `cleanup`, and the state left. -/
structure Admission where
  ok : Bool
  cleaned : Bool
  dev : Device

/-- Function `ImageCache::cacheImage` -/
def cacheImage (p : Platform) (timestamp : String) (d : Device) : Admission :=
  let low := spaceLow p.usedBytes d.imageSize p.totalBytes
  let d1 := if low then (cleanup p d).1 else d
  if d1.imageBuffer.isNone || d1.imageSize == 0 then ⟨false, low, d1⟩
  else
    let path := (getCachePath p timestamp d1.fs).1
    let d2 := { d1 with fs := (getCachePath p timestamp d1.fs).2 }
    if !p.openWrite path then ⟨false, low, d2⟩
    else
      let written := p.write d2.imageSize
      let data := ((d2.imageBuffer.getD []).take d2.imageSize).take written
      let d3 := { d2 with fs := d2.fs.create path data }
      if written != d3.imageSize then ⟨false, low, d3⟩
      else
        ⟨true, low,
          { d3 with
              entries := Function.update d3.entries d3.writeIndex ⟨timestamp, true⟩,
              writeIndex := (d3.writeIndex + 1) % NROFIMAGESTOSHOW }⟩

/-- Function `ImageCache::loadImage`; the source does not test what `file.read`
returns, and the read is taken to deliver the bytes of the file. -/
def loadImage (p : Platform) (timestamp : String) (d : Device) : Bool × Device :=
  let path := (getCachePath p timestamp d.fs).1
  let d1 := { d with fs := (getCachePath p timestamp d.fs).2 }
  if !d1.fs.pathExists path then (false, d1)
  else
    match (if p.openRead path then d1.fs.read path else none) with
    | none => (false, d1)
    | some content =>
      let d2 := { d1 with imageSize := content.length }
      if !p.malloc d2.imageSize then (false, { d2 with imageBuffer := none })
      else
        (true, { d2 with imageBuffer := some content })

/-! ## ImageDownloader.cpp -/

/-- What the network answers during one `downloadImage`. -/
structure Http where
  /-- the status `http.GET()` returns -/
  code : Int
  /-- Value of `http.getSize()`, an `int` (`-1` when no length was sent) -/
  size : Int
  /-- what the stream hands over at each poll; an empty chunk is a poll at
  which nothing was available -/
  chunks : List (List Byte)

/-- The outcome of `downloadImage`: the value returned, how many GET requests
were issued, the value of the `cacheImage` call when one was made, and the
state left. -/
structure Resolve where
  ok : Bool
  gets : Nat
  admitted : Option Bool
  dev : Device

/-- The loop `while (read < imageSize)` of `downloadImage`: the bytes received
when the loop ends, `none` when the stream dries up first (the loop then
polls for ever). A last chunk may carry the count past `imageSize`; the
caller keeps the first `imageSize` bytes and sees `read != imageSize`. -/
def streamLoop (imageSize : Nat) : List (List Byte) → List Byte → Option (List Byte)
  | [], got => if got.length < imageSize then none else some got
  | c :: cs, got =>
    if got.length < imageSize then streamLoop imageSize cs (got ++ c) else some got

/-- Function `ImageDownloader::downloadImage`; `none` when the call does not return. -/
def downloadImage (p : Platform) (net : Http) (timestamp : String) (d : Device) :
    Option Resolve :=
  if (loadImage p timestamp d).1 then some ⟨true, 0, none, (loadImage p timestamp d).2⟩
  else
    let d1 := (loadImage p timestamp d).2
    if net.code != HTTP_CODE_OK then some ⟨false, 1, none, d1⟩
    else
      let d2 := { d1 with imageBuffer := none, imageSize := (net.size % SIZE_T_MOD).toNat }
      if !p.malloc d2.imageSize then some ⟨false, 1, none, d2⟩
      else
        match streamLoop d2.imageSize net.chunks [] with
        | none => none
        | some got =>
          let d3 := { d2 with imageBuffer := some (got.take d2.imageSize) }
          if got.length == d3.imageSize then
            some ⟨true, 1, some (cacheImage p timestamp d3).ok, (cacheImage p timestamp d3).dev⟩
          else some ⟨false, 1, none, d3⟩

/-- The fields of `struct tm` the program reads or writes. -/
structure Tm where
  tm_year : Int
  tm_mon : Int
  tm_mday : Int
  tm_hour : Int
  tm_min : Int
  tm_sec : Int
  tm_yday : Int
  deriving DecidableEq, Repr

/-- Days since 1970-01-01 of a civil date (`m` from 1, `d` from 1). -/
def daysFromCivil (y m d : Int) : Int :=
  let y1 := if m ≤ 2 then y - 1 else y
  let era := y1 / 400
  let yoe := y1 - era * 400
  let doy := (153 * (if m > 2 then m - 3 else m + 9) + 2) / 5 + d - 1
  let doe := yoe * 365 + yoe / 4 - yoe / 100 + doy
  era * 146097 + doe - 719468

/-- The civil date (year, month from 1, day from 1) of a day count. -/
def civilFromDays (z : Int) : Int × Int × Int :=
  let z1 := z + 719468
  let era := z1 / 146097
  let doe := z1 - era * 146097
  let yoe := (doe - doe / 1460 + doe / 36524 - doe / 146096) / 365
  let doy := doe - (365 * yoe + yoe / 4 - yoe / 100)
  let mp := (5 * doy + 2) / 153
  let d := doy - (153 * mp + 2) / 5 + 1
  let m := if mp < 10 then mp + 3 else mp - 9
  (if m ≤ 2 then yoe + era * 400 + 1 else yoe + era * 400, m, d)

/-- Function `mktime(&timeinfo)` of the C library with the zone at GMT
(`GMT_OFFSET_SEC 0`, no daylight saving): the fields are brought back into
their ranges. -/
def mktime (t : Tm) : Tm :=
  let y := t.tm_year + 1900 + t.tm_mon / 12
  let m := t.tm_mon % 12 + 1
  let secs := (daysFromCivil y m 1 + (t.tm_mday - 1)) * 86400
    + t.tm_hour * 3600 + t.tm_min * 60 + t.tm_sec
  let days := secs / 86400
  let rem := secs % 86400
  let c := civilFromDays days
  { tm_year := c.1 - 1900, tm_mon := c.2.1 - 1, tm_mday := c.2.2,
    tm_hour := rem / 3600, tm_min := rem % 3600 / 60, tm_sec := rem % 60,
    tm_yday := days - daysFromCivil c.1 1 1 }

/-- The conversion `%0<width>d` of `snprintf`. -/
def fmtInt (width : Nat) (v : Int) : String :=
  if v < 0 then
    "-" ++ String.mk (List.replicate (width - 1 - (toString v.natAbs).length) '0')
      ++ toString v.natAbs
  else
    String.mk (List.replicate (width - (toString v.toNat).length) '0') ++ toString v.toNat

/-- What `snprintf(timeStr, sizeof(timeStr), ...)` leaves in `char timeStr[22]`:
at most 21 characters of the formatted text. -/
def snprintf22 (text : String) : String := String.mk (text.data.take 21)

/-- The `switch (SATTYPE)` with the two `snprintf` calls, shared by
`getFormattedTime` and `showLastXHours`. -/
def formatTimestamp (t : Tm) : String :=
  match SATTYPE with
  | SatType.ELEKTROL =>
    snprintf22 (fmtInt 4 (t.tm_year + 1900) ++ fmtInt 2 (t.tm_mon + 1) ++ fmtInt 2 t.tm_mday
      ++ "-" ++ fmtInt 2 t.tm_hour ++ fmtInt 2 (Int.tdiv t.tm_min 30 * 30))
  | _ =>
    snprintf22 (fmtInt 1 (t.tm_year + 1900) ++ fmtInt 3 (t.tm_yday + 1)
      ++ fmtInt 4 (t.tm_hour * 100 + Int.tdiv t.tm_min 10 * 10))

/-- Function `ImageDownloader::getFormattedTime`; `clock` is what `getLocalTime`
delivers, `none` when it fails. -/
def getFormattedTime (clock : Option Tm) : String :=
  match clock with
  | none => ""
  | some t => formatTimestamp (mktime { t with tm_min := t.tm_min - 15 })

/-- The `for` loop of `showLastXHours`, run for `n` turns from the time `t`;
`download` is the call `downloadImage(timeStr)` followed by the drawing of
the image when it returned true. -/
def replayLoop {σ : Type} (download : String → σ → σ) : Nat → Tm → σ → σ
  | 0, _, s => s
  | n + 1, t, s =>
    replayLoop download n (mktime { t with tm_min := t.tm_min + 10 })
      (download (formatTimestamp t) s)

/-- Function `ImageDownloader::showLastXHours` -/
def showLastXHours {σ : Type} (clock : Option Tm) (download : String → σ → σ) (s : σ) : σ :=
  match clock with
  | none => s
  | some t =>
    let t1 := { t with tm_min := t.tm_min - 15 }
    let t2 :=
      match SATTYPE with
      | SatType.ELEKTROL => { t1 with tm_min := t1.tm_min - ((NROFIMAGESTOSHOW : Int) - 1) * 30 }
      | _ => { t1 with tm_min := t1.tm_min - ((NROFIMAGESTOSHOW : Int) - 1) * 20 }
    replayLoop download NROFIMAGESTOSHOW (mktime t2) s

/-! ## Sequences of calls -/

/-- The spec's `admit(key, bytes, n)`: the shared buffer holds `bytes` and
`imageSize` is their number when `cacheImage(key)` is called. -/
def admitBytes (p : Platform) (timestamp : String) (bytes : List Byte) (d : Device) : Admission :=
  cacheImage p timestamp { d with imageBuffer := some bytes, imageSize := bytes.length }

/-- A platform on which nothing fails, with the given space readings. -/
def Platform.sound (used total : Nat) : Platform :=
  { usedBytes := used, totalBytes := total, mkdir := true,
    openWrite := fun _ => true, write := fun n => n, openRead := fun _ => true,
    malloc := fun _ => true, remove := fun _ => true }

/-- One call `admit(key, bytes, n)`, with what the platform answers during it. -/
structure Call where
  platform : Platform
  key : String
  bytes : List Byte

/-- The state after the calls, made in order. -/
def afterAdmits : List Call → Device → Device
  | [], d => d
  | c :: cs, d => afterAdmits cs (admitBytes c.platform c.key c.bytes d).dev

/-- Whether every one of the calls, made in order, returns true. -/
def allAdmitted : List Call → Device → Bool
  | [], _ => true
  | c :: cs, d =>
    (admitBytes c.platform c.key c.bytes d).ok && allAdmitted cs (admitBytes c.platform c.key c.bytes d).dev

/-- Whether none of the calls, made in order, runs `cleanup`. -/
def noneEvicted : List Call → Device → Bool
  | [], _ => true
  | c :: cs, d =>
    !(admitBytes c.platform c.key c.bytes d).cleaned
      && noneEvicted cs (admitBytes c.platform c.key c.bytes d).dev

/-- The cache after a `begin()` that mounts the store `fs` at the first try. -/
def Device.started (fs : SPIFFS) : Device := (begin ⟨true, true, true⟩ (Device.boot fs)).2

/-! ## Auxiliary definitions of the proofs, and sample inputs -/

/-- The state `cacheImage` works on once its space check is done. -/
def afterSpaceCheck (p : Platform) (d : Device) : Device :=
  if spaceLow p.usedBytes d.imageSize p.totalBytes then (cleanup p d).1 else d

/-- The part of `cacheImage` below its space check, over the state `d1` the
check leaves (a device of the proofs). -/
def storeStep (p : Platform) (timestamp : String) (low : Bool) (d1 : Device) : Admission :=
  if d1.imageBuffer.isNone || d1.imageSize == 0 then ⟨false, low, d1⟩
  else
    let path := (getCachePath p timestamp d1.fs).1
    let d2 := { d1 with fs := (getCachePath p timestamp d1.fs).2 }
    if !p.openWrite path then ⟨false, low, d2⟩
    else
      let written := p.write d2.imageSize
      let data := ((d2.imageBuffer.getD []).take d2.imageSize).take written
      let d3 := { d2 with fs := d2.fs.create path data }
      if written != d3.imageSize then ⟨false, low, d3⟩
      else
        ⟨true, low,
          { d3 with
              entries := Function.update d3.entries d3.writeIndex ⟨timestamp, true⟩,
              writeIndex := (d3.writeIndex + 1) % NROFIMAGESTOSHOW }⟩

/-- A platform on which everything succeeds except `malloc`. -/
def Platform.noHeap (used total : Nat) : Platform :=
  { Platform.sound used total with malloc := fun _ => false }

/-- The cache after one successful admit of a one-byte image. -/
def oneAdmitted : Device :=
  (admitBytes (Platform.sound 0 1000) "20250109-0630" [1] (Device.started SPIFFS.formatted)).dev

/-- The admit of a one-byte image under the key `1000 + i`, on a platform
where nothing fails and space is plentiful. -/
def numbered (i : Nat) : Call := ⟨Platform.sound 0 1000000, toString (1000 + i), [1]⟩

/-- The 47 admits numbered 1 to 47. -/
def fortySeven : List Call := (List.range 47).map (fun i => numbered (i + 1))

/-- The state a download without a length leaves when its `malloc` fails: no
buffer, and `imageSize` the largest `size_t`. -/
def lengthUnknown : Device :=
  { Device.started SPIFFS.formatted with imageBuffer := none, imageSize := 4294967295 }

/-- A platform on which the write stops after one byte. -/
def Platform.shortWrite : Platform :=
  { Platform.sound 0 1000 with write := fun _ => 1 }

/-- A network that answers 404. -/
def Http.notFound : Http := ⟨404, 0, []⟩

/-- The cache with an image in the buffer and nothing stored. -/
def holdingImage : Device :=
  { Device.started SPIFFS.formatted with imageBuffer := some [9, 9], imageSize := 2 }

/-- The clock at 2025-01-09 06:45:00. -/
def sampleClock : Option Tm := some ⟨125, 0, 9, 6, 45, 0, 8⟩

/-- One step of a run of the program on the cache: a call of one of the three
operations, or an assignment of the globals `imageBuffer` and `imageSize` by
the code outside the cache (`downloadImage` does so before it calls
`cacheImage`). -/
inductive Op where
  | callCacheImage (p : Platform) (timestamp : String)
  | callLoadImage (p : Platform) (timestamp : String)
  | callCleanup (p : Platform)
  | assignBuffer (buffer : Option (List Byte)) (size : Nat)

/-- The state after one step. -/
def Op.run : Op → Device → Device
  | Op.callCacheImage p timestamp, d => (cacheImage p timestamp d).dev
  | Op.callLoadImage p timestamp, d => (loadImage p timestamp d).2
  | Op.callCleanup p, d => (cleanup p d).1
  | Op.assignBuffer buffer size, d => { d with imageBuffer := buffer, imageSize := size }

/-- The state after the steps, made in order. -/
def runOps : List Op → Device → Device
  | [], d => d
  | op :: ops, d => runOps ops (op.run d)

/-- The invariant of the write cursor: `writeIndex` is below
`NROFIMAGESTOSHOW`, and no slot from `NROFIMAGESTOSHOW` on is valid. -/
def RingOk (d : Device) : Prop :=
  d.writeIndex < NROFIMAGESTOSHOW ∧ ∀ i, NROFIMAGESTOSHOW ≤ i → (d.entries i).valid = false

/-- The cache after a one-byte image was put in the buffer and stored. -/
def oneStored : Device :=
  runOps [Op.assignBuffer (some [1]) 1, Op.callCacheImage (Platform.sound 0 1000) "20250109-0630"]
    (Device.started SPIFFS.formatted)

/-- The cache with one blob stored and the buffer released: a null buffer
and `imageSize` 0. -/
def storedThenReleased : Device := (Op.assignBuffer none 0).run oneStored

/-! ## The space check in exact arithmetic -/

theorem excessBits_spec (n : Nat) : ∀ fuel j : Nat, n < 2 ^ (53 + j + fuel) →
    (j = 0 ∨ 2 ^ (52 + j) ≤ n) →
    n < 2 ^ (53 + excessBits n fuel j) ∧
      (excessBits n fuel j = 0 ∨ 2 ^ (52 + excessBits n fuel j) ≤ n) := by
  intro fuel
  induction fuel with
  | zero =>
    intro j h1 h2
    simpa [excessBits] using ⟨h1, h2⟩
  | succ f ih =>
    intro j h1 h2
    unfold excessBits
    by_cases hlt : n < 2 ^ (53 + j)
    · rw [if_pos hlt]
      exact ⟨hlt, h2⟩
    · rw [if_neg hlt]
      apply ih (j + 1)
      · have e : 53 + (j + 1) + f = 53 + j + (f + 1) := by omega
        rw [e]
        exact h1
      · right
        have e : 52 + (j + 1) = 53 + j := by omega
        rw [e]
        exact Nat.le_of_not_lt hlt

theorem excessBits_start (n : Nat) :
    n < 2 ^ (53 + excessBits n n 0) ∧
      (excessBits n n 0 = 0 ∨ 2 ^ (52 + excessBits n n 0) ≤ n) := by
  apply excessBits_spec n n 0
  · calc n < 2 ^ n := Nat.lt_two_pow n
      _ ≤ 2 ^ (53 + 0 + n) := Nat.pow_le_pow_right (by decide) (by omega)
  · left
    rfl

theorem excessBits_small (n : Nat) (h : n < 2 ^ 53) : excessBits n n 0 = 0 := by
  rcases excessBits_start n with ⟨_, h0 | hge⟩
  · exact h0
  · by_contra hne
    have h1 : 2 ^ 53 ≤ 2 ^ (52 + excessBits n n 0) :=
      Nat.pow_le_pow_right (by decide) (by omega)
    omega

theorem Double.ofNat_small (n : Nat) (h : n < 2 ^ 53) : Double.ofNat n = ⟨n, 0⟩ := by
  simp [Double.ofNat, roundNearestEven, excessBits_small n h, Nat.mod_one]

/-- The rounded significand is within half a unit of the exact quotient and
never below its floor. -/
theorem round_bounds (n j : Nat) :
    let q := n / 2 ^ j
    let r := n % 2 ^ j
    let up := decide (2 ^ j < 2 * r) || (decide (2 * r = 2 ^ j) && decide (q % 2 = 1))
    let R := if up then q + 1 else q
    2 * (R * 2 ^ j) ≤ 2 * n + 2 ^ j ∧ 2 * n ≤ 2 * (R * 2 ^ j) + 2 ^ j ∧ q * 2 ^ j ≤ R * 2 ^ j := by
  intro q r up R
  have hP : 0 < 2 ^ j := Nat.two_pow_pos _
  have hdm : 2 ^ j * q + r = n := Nat.div_add_mod n (2 ^ j)
  have hr : r < 2 ^ j := Nat.mod_lt n hP
  have hqP : q * 2 ^ j = 2 ^ j * q := Nat.mul_comm _ _
  by_cases hup : up = true
  · have hR : R = q + 1 := if_pos hup
    have h2r : 2 ^ j ≤ 2 * r := by
      simp only [up, Bool.or_eq_true, Bool.and_eq_true, decide_eq_true_eq] at hup
      rcases hup with h | ⟨h, _⟩
      · exact Nat.le_of_lt h
      · exact Nat.le_of_eq h.symm
    have e : R * 2 ^ j = 2 ^ j * q + 2 ^ j := by rw [hR, Nat.add_mul, Nat.one_mul, hqP]
    rw [e, hqP]
    omega
  · have hR : R = q := if_neg hup
    have h2r : 2 * r ≤ 2 ^ j := by
      simp only [up, Bool.or_eq_true, Bool.and_eq_true, decide_eq_true_eq, not_or] at hup
      exact Nat.le_of_not_lt hup.1
    rw [hR, hqP]
    omega

/-- What `roundNearestEven` returns: the shift `j` it settles on and the
significand `R`, with the bounds the proofs use. -/
theorem round_spec (n : Nat) (e : Int) :
    ∃ j R : Nat, roundNearestEven n e = ⟨R, e + j⟩ ∧
      n < 2 ^ (53 + j) ∧ (j = 0 ∨ 2 ^ (52 + j) ≤ n) ∧
      2 * (R * 2 ^ j) ≤ 2 * n + 2 ^ j ∧ 2 * n ≤ 2 * (R * 2 ^ j) + 2 ^ j ∧
      n / 2 ^ j * 2 ^ j ≤ R * 2 ^ j := by
  obtain ⟨hlt, hge⟩ := excessBits_start n
  obtain ⟨hb1, hb2, hb3⟩ := round_bounds n (excessBits n n 0)
  exact ⟨excessBits n n 0, _, rfl, hlt, hge, hb1, hb2, hb3⟩

/-- The double comparison of `cacheImage` decides exactly `9 * total < 10 * sum`
whenever both operands are `size_t` values. -/
theorem double_check_exact (T U : Nat) (hT : T < 2 ^ 32) (hU : U < 2 ^ 32) :
    Double.lt (Double.mul (Double.ofNat T) POINT_NINE) (Double.ofNat U) = true ↔
      9 * T < 10 * U := by
  have hT53 : T < 2 ^ 53 := Nat.lt_of_lt_of_le hT (Nat.pow_le_pow_right (by decide) (by decide))
  have hU53 : U < 2 ^ 53 := Nat.lt_of_lt_of_le hU (Nat.pow_le_pow_right (by decide) (by decide))
  rw [Double.ofNat_small T hT53, Double.ofNat_small U hU53]
  obtain ⟨n, hn⟩ : ∃ n, T * 8106479329266893 = n := ⟨_, rfl⟩
  obtain ⟨j, R, hround, hlt, hge, hb1, hb2, hb3⟩ := round_spec n ((0:Int) + -53)
  have hmul : Double.mul ⟨T, 0⟩ POINT_NINE = ⟨R, (0:Int) + -53 + j⟩ := by
    rw [← hround, ← hn]
    rfl
  rw [hmul]
  have hP : 0 < 2 ^ j := Nat.two_pow_pos _
  -- the exponent of the product stays within the significand width
  have hj : j ≤ 32 := by
    rcases hge with h0 | hge
    · omega
    · by_contra hcon
      have h1 : 2 ^ 85 ≤ 2 ^ (52 + j) := Nat.pow_le_pow_right (by decide) (by omega)
      have h2 : n < 2 ^ 85 := by
        have : (2:Nat) ^ 85 = 2 ^ 32 * 2 ^ 53 := by norm_num
        rw [← hn, this]
        exact Nat.mul_lt_mul_of_lt_of_le hT (by norm_num) (by norm_num)
      omega
  -- one unit in the last place is below `2 * T`
  have hPT : 2 ^ j = 1 ∨ 2 ^ j < 2 * T := by
    rcases hge with h0 | hge
    · left
      rw [h0]
      rfl
    · right
      have h1 : 2 ^ (52 + j) = 2 ^ 52 * 2 ^ j := by rw [pow_add]
      have h2 : n < T * 2 ^ 53 := by
        rw [← hn]
        have hTpos : 0 < T := by
          rcases Nat.eq_zero_or_pos T with h | h
          · exfalso
            rw [h] at hn
            have : 0 < 2 ^ (52 + j) := Nat.two_pow_pos _
            omega
          · exact h
        exact Nat.mul_lt_mul_of_le_of_lt (Nat.le_refl T) (by norm_num) hTpos
      have h3 : (2:Nat) ^ 53 = 2 ^ 52 * 2 := by norm_num
      rw [h1] at hge
      rw [h3] at h2
      have h4 : 2 ^ 52 * 2 ^ j < 2 ^ 52 * (2 * T) := by
        calc 2 ^ 52 * 2 ^ j ≤ n := hge
          _ < T * (2 ^ 52 * 2) := h2
          _ = 2 ^ 52 * (2 * T) := by ring
      exact Nat.lt_of_mul_lt_mul_left h4
  have hK : 2 ^ (53 - j) * 2 ^ j = 2 ^ 53 := by
    rw [← pow_add]
    congr 1
    omega
  -- a multiple of `2 ^ 53` below the product is below its floor
  have hfloor : U * 2 ^ 53 ≤ n → U * 2 ^ 53 ≤ n / 2 ^ j * 2 ^ j := by
    intro h
    have e : U * 2 ^ 53 = U * 2 ^ (53 - j) * 2 ^ j := by rw [Nat.mul_assoc, hK]
    rw [e] at h ⊢
    exact Nat.mul_le_mul_right _ ((Nat.le_div_iff_mul_le hP).mpr h)
  have hmin : min ((0:Int) + -53 + (j:Int)) 0 = -53 + j := by
    rw [min_eq_left] <;> omega
  have e1 : ((0:Int) + -53 + (j:Int) - (-53 + (j:Int))).toNat = 0 := by
    have : ((0:Int) + -53 + (j:Int) - (-53 + (j:Int))) = 0 := by omega
    rw [this]
    rfl
  have e2 : ((0:Int) - (-53 + (j:Int))).toNat = 53 - j := by omega
  simp only [Double.lt, hmin, e1, e2, pow_zero, Nat.mul_one, decide_eq_true_eq, Int.sub_zero]
  rw [← Nat.mul_lt_mul_right hP, Nat.mul_assoc, hK]
  have h53 : (2:Nat) ^ 53 = 9007199254740992 := by norm_num
  rw [h53] at hfloor ⊢
  generalize R * 2 ^ j = X at hb1 hb2 hb3 ⊢
  generalize n / 2 ^ j * 2 ^ j = Fl at hb3 hfloor
  generalize 2 ^ j = P at hb1 hb2 hPT
  subst hn
  omega

/-! ## The store -/

theorem blobPath_ne_cache (k : String) : blobPath k ≠ "/cache" := by
  intro h
  have hl := congrArg String.length h
  simp only [blobPath, String.length_append] at hl
  have h1 : "/cache/".length = 7 := by decide
  have h2 : ".jpg".length = 4 := by decide
  have h3 : "/cache".length = 6 := by decide
  omega

theorem blobPath_injective {a b : String} (h : blobPath a = blobPath b) : a = b := by
  have hd := congrArg String.data h
  simp only [blobPath, String.data_append] at hd
  have h1 := List.append_cancel_right hd
  have h2 := List.append_cancel_left h1
  exact String.ext h2

theorem lookupFile_dropFile (path q : String) (l : List (String × List Byte)) :
    lookupFile q (dropFile path l) = if q = path then none else lookupFile q l := by
  induction l with
  | nil => simp [lookupFile, dropFile]
  | cons f rest ih =>
    unfold dropFile
    by_cases hf : f.1 = path
    · rw [if_pos hf, ih]
      by_cases hq : q = path
      · simp [hq]
      · have hne : ¬ f.1 = q := fun e => hq (e.symm.trans hf)
        simp [hq, lookupFile, hne]
    · rw [if_neg hf]
      unfold lookupFile
      rw [ih]
      by_cases hq : q = path
      · have hne : ¬ f.1 = q := fun e => hf (e.trans hq)
        simp [hq, hne]
        intro e
        exact absurd e hf
      · simp [hq]

theorem lookupFile_none_of_not_mem (q : String) (l : List (String × List Byte))
    (h : q ∉ l.map Prod.fst) : lookupFile q l = none := by
  induction l with
  | nil => rfl
  | cons f rest ih =>
    simp only [List.map_cons, List.mem_cons, not_or] at h
    have hne : ¬ f.1 = q := fun e => h.1 e.symm
    simp [lookupFile, hne, ih h.2]

@[simp] theorem read_create (fs : SPIFFS) (path q : String) (data : List Byte) :
    (fs.create path data).read q = if q = path then some data else fs.read q := by
  by_cases hq : q = path
  · simp [SPIFFS.create, SPIFFS.read, lookupFile, hq]
  · have hne : ¬ path = q := fun e => hq e.symm
    simp [SPIFFS.create, SPIFFS.read, lookupFile, hq, hne, lookupFile_dropFile]

@[simp] theorem read_remove (fs : SPIFFS) (path q : String) :
    (fs.remove path).read q = if q = path then none else fs.read q := by
  simp [SPIFFS.remove, SPIFFS.read, lookupFile_dropFile]

@[simp] theorem read_mkdir (fs : SPIFFS) (path q : String) (ok : Bool) :
    (fs.mkdir path ok).read q = fs.read q := by
  unfold SPIFFS.mkdir
  split <;> rfl

@[simp] theorem getCachePath_fst (p : Platform) (k : String) (fs : SPIFFS) :
    (getCachePath p k fs).1 = blobPath k := rfl

@[simp] theorem read_getCachePath (p : Platform) (k q : String) (fs : SPIFFS) :
    (getCachePath p k fs).2.read q = fs.read q := by
  unfold getCachePath
  dsimp only
  split
  · exact read_mkdir _ _ _ _
  · rfl

/-- A blob path is never the directory, so the existence check on it sees
blobs only. -/
@[simp] theorem pathExists_blobPath (fs : SPIFFS) (k : String) :
    fs.pathExists (blobPath k) = (fs.read (blobPath k)).isSome := by
  simp [SPIFFS.pathExists, blobPath_ne_cache]

theorem read_foldl_remove (p : Platform) (q : String) (names : List String) :
    ∀ fs : SPIFFS,
      (names.foldl (fun acc path => if p.remove path then acc.remove path else acc) fs).read q =
        if q ∈ names ∧ p.remove q = true then none else fs.read q := by
  induction names with
  | nil => intro fs; simp
  | cons n rest ih =>
    intro fs
    rw [List.foldl_cons, ih]
    by_cases hq : q = n
    · subst hq
      by_cases hr : p.remove q = true
      · simp [hr]
      · simp [hr]
    · by_cases hr : p.remove n = true
      · simp [hr, hq]
      · simp [hr, hq]

/-- The root sweep leaves exactly the blobs whose deletion the platform
refused. -/
theorem read_sweepRoot (p : Platform) (fs : SPIFFS) (q : String) :
    (sweepRoot p fs).read q = if p.remove q = true then none else fs.read q := by
  unfold sweepRoot
  rw [read_foldl_remove]
  by_cases hmem : q ∈ fs.files.map Prod.fst
  · simp [hmem]
  · have hnone : fs.read q = none := lookupFile_none_of_not_mem q fs.files hmem
    simp [hmem, hnone]

/-! ## cleanup -/

theorem invalidate_eq (e : CacheEntry) (h : e.valid = false) : { e with valid := false } = e := by
  cases e
  simp_all

theorem cleanupSlot_entries (p : Platform) (i : Nat) (st : Device × Nat) :
    (cleanupSlot p i st).1.entries =
      Function.update st.1.entries i { st.1.entries i with valid := false } := by
  unfold cleanupSlot
  by_cases hv : (st.1.entries i).valid = true
  · simp [hv]
  · have hv2 : (st.1.entries i).valid = false := by simpa using hv
    simp only [hv2, Bool.not_false, if_true]
    funext j
    by_cases hj : j = i
    · subst hj
      rw [Function.update_same, invalidate_eq _ hv2]
    · rw [Function.update_noteq hj]

theorem cleanupSlot_frame (p : Platform) (i : Nat) (st : Device × Nat) :
    (cleanupSlot p i st).1.imageBuffer = st.1.imageBuffer ∧
      (cleanupSlot p i st).1.imageSize = st.1.imageSize ∧
      (cleanupSlot p i st).1.writeIndex = st.1.writeIndex := by
  unfold cleanupSlot
  split <;> simp

theorem cleanupSlot_read (p : Platform) (i : Nat) (st : Device × Nat) (q : String) :
    (cleanupSlot p i st).1.fs.read q = none ∨
      (cleanupSlot p i st).1.fs.read q = st.1.fs.read q := by
  unfold cleanupSlot
  split
  · right; rfl
  · dsimp only
    split
    · rw [read_remove, read_getCachePath]
      split
      · left; rfl
      · right; rfl
    · right
      exact read_getCachePath _ _ _ _

theorem cleanupSlot_count (p : Platform) (i : Nat) (st : Device × Nat)
    (h : ∀ q, st.1.fs.read q = none) : (cleanupSlot p i st).2 = st.2 := by
  unfold cleanupSlot
  split
  · rfl
  · simp [h]

theorem cleanupLoop_entries (p : Platform) : ∀ (n i : Nat) (st : Device × Nat) (j : Nat),
    (cleanupLoop p n i st).1.entries j =
      if i ≤ j ∧ j < i + n then { st.1.entries j with valid := false } else st.1.entries j := by
  intro n
  induction n with
  | zero =>
    intro i st j
    have : ¬ (i ≤ j ∧ j < i + 0) := by omega
    rw [if_neg this]
    rfl
  | succ n ih =>
    intro i st j
    unfold cleanupLoop
    rw [ih, cleanupSlot_entries]
    by_cases hji : j = i
    · subst hji
      have h1 : ¬ (j + 1 ≤ j ∧ j < j + 1 + n) := by omega
      have h2 : j ≤ j ∧ j < j + (n + 1) := by omega
      rw [if_neg h1, if_pos h2, Function.update_same]
    · rw [Function.update_noteq hji]
      by_cases hin : i + 1 ≤ j ∧ j < i + 1 + n
      · have h2 : i ≤ j ∧ j < i + (n + 1) := by omega
        rw [if_pos hin, if_pos h2]
      · have h2 : ¬ (i ≤ j ∧ j < i + (n + 1)) := by omega
        rw [if_neg hin, if_neg h2]

theorem cleanupLoop_frame (p : Platform) : ∀ (n i : Nat) (st : Device × Nat),
    (cleanupLoop p n i st).1.imageBuffer = st.1.imageBuffer ∧
      (cleanupLoop p n i st).1.imageSize = st.1.imageSize ∧
      (cleanupLoop p n i st).1.writeIndex = st.1.writeIndex := by
  intro n
  induction n with
  | zero => intro i st; simp [cleanupLoop]
  | succ n ih =>
    intro i st
    unfold cleanupLoop
    obtain ⟨h1, h2, h3⟩ := ih (i + 1) (cleanupSlot p i st)
    obtain ⟨g1, g2, g3⟩ := cleanupSlot_frame p i st
    exact ⟨h1.trans g1, h2.trans g2, h3.trans g3⟩

theorem cleanupLoop_read (p : Platform) (q : String) : ∀ (n i : Nat) (st : Device × Nat),
    (cleanupLoop p n i st).1.fs.read q = none ∨
      (cleanupLoop p n i st).1.fs.read q = st.1.fs.read q := by
  intro n
  induction n with
  | zero => intro i st; right; rfl
  | succ n ih =>
    intro i st
    unfold cleanupLoop
    rcases ih (i + 1) (cleanupSlot p i st) with h | h
    · left; exact h
    · rcases cleanupSlot_read p i st q with g | g
      · left; exact h.trans g
      · right; exact h.trans g

theorem cleanupLoop_count (p : Platform) : ∀ (n i : Nat) (st : Device × Nat),
    (∀ q, st.1.fs.read q = none) → (cleanupLoop p n i st).2 = st.2 := by
  intro n
  induction n with
  | zero => intro i st _; rfl
  | succ n ih =>
    intro i st h
    unfold cleanupLoop
    have hnext : ∀ q, (cleanupSlot p i st).1.fs.read q = none := by
      intro q
      rcases cleanupSlot_read p i st q with g | g
      · exact g
      · exact g.trans (h q)
    rw [ih (i + 1) _ hnext, cleanupSlot_count p i st h]

/-- Unfolding of `cleanup` as compiled with `DEBUG_ENABLED` and `DELETE_ALL`. -/
theorem cleanup_eq (p : Platform) (d : Device) :
    cleanup p d =
      ({ (cleanupLoop p CACHE_SIZE 0 ({ d with fs := sweepRoot p d.fs }, 0)).1 with
          writeIndex := 0 },
       (cleanupLoop p CACHE_SIZE 0 ({ d with fs := sweepRoot p d.fs }, 0)).2) := by
  unfold cleanup
  generalize CACHE_SIZE = n
  simp only [DEBUG_ENABLED, DELETE_ALL, Bool.and_self, if_true]

theorem cleanup_entries (p : Platform) (d : Device) (j : Nat) :
    (cleanup p d).1.entries j =
      if j < CACHE_SIZE then { d.entries j with valid := false } else d.entries j := by
  rw [cleanup_eq]
  generalize CACHE_SIZE = n
  dsimp only
  rw [cleanupLoop_entries]
  simp

theorem cleanup_frame (p : Platform) (d : Device) :
    (cleanup p d).1.imageBuffer = d.imageBuffer ∧ (cleanup p d).1.imageSize = d.imageSize ∧
      (cleanup p d).1.writeIndex = 0 := by
  rw [cleanup_eq]
  generalize CACHE_SIZE = n
  obtain ⟨h1, h2, _⟩ := cleanupLoop_frame p n 0 ({ d with fs := sweepRoot p d.fs }, 0)
  exact ⟨h1, h2, rfl⟩

/-- After `cleanup` a blob is either gone or what it was. -/
theorem cleanup_read (p : Platform) (d : Device) (q : String) :
    (cleanup p d).1.fs.read q = none ∨ (cleanup p d).1.fs.read q = d.fs.read q := by
  rw [cleanup_eq]
  generalize CACHE_SIZE = n
  rcases cleanupLoop_read p q n 0 ({ d with fs := sweepRoot p d.fs }, 0) with h | h
  · left; exact h
  · have hs := read_sweepRoot p d.fs q
    by_cases hr : p.remove q = true
    · left
      rw [if_pos hr] at hs
      exact h.trans hs
    · right
      rw [if_neg hr] at hs
      exact h.trans hs

/-- When no deletion fails, `cleanup` leaves no blob at all. -/
theorem cleanup_read_none (p : Platform) (d : Device) (hrm : ∀ path, p.remove path = true)
    (q : String) : (cleanup p d).1.fs.read q = none := by
  rw [cleanup_eq]
  generalize CACHE_SIZE = n
  rcases cleanupLoop_read p q n 0 ({ d with fs := sweepRoot p d.fs }, 0) with h | h
  · exact h
  · have hs := read_sweepRoot p d.fs q
    rw [if_pos (hrm q)] at hs
    exact h.trans hs

/-- When no deletion fails, the root sweep has removed every blob before the
ring is walked, and `filesRemoved` stays at zero. -/
theorem cleanup_count_zero (p : Platform) (d : Device) (hrm : ∀ path, p.remove path = true) :
    (cleanup p d).2 = 0 := by
  rw [cleanup_eq]
  generalize CACHE_SIZE = n
  apply cleanupLoop_count p n 0 ({ d with fs := sweepRoot p d.fs }, 0)
  intro q
  have hs := read_sweepRoot p d.fs q
  rw [if_pos (hrm q)] at hs
  exact hs

/-! ## cacheImage -/

theorem afterSpaceCheck_frame (p : Platform) (d : Device) :
    (afterSpaceCheck p d).imageBuffer = d.imageBuffer ∧
      (afterSpaceCheck p d).imageSize = d.imageSize := by
  unfold afterSpaceCheck
  split
  · exact ⟨(cleanup_frame p d).1, (cleanup_frame p d).2.1⟩
  · exact ⟨rfl, rfl⟩

theorem cacheImage_cleaned (p : Platform) (k : String) (d : Device) :
    (cacheImage p k d).cleaned = spaceLow p.usedBytes d.imageSize p.totalBytes := by
  unfold cacheImage
  dsimp only
  split_ifs <;> rfl

theorem cacheImage_eq_storeStep (p : Platform) (k : String) (d : Device) :
    cacheImage p k d =
      storeStep p k (spaceLow p.usedBytes d.imageSize p.totalBytes) (afterSpaceCheck p d) := rfl

theorem storeStep_cases (p : Platform) (k : String) (low : Bool) (d1 : Device) :
    storeStep p k low d1 =
      if d1.imageBuffer = none ∨ d1.imageSize = 0 then ⟨false, low, d1⟩
      else if p.openWrite (blobPath k) = false then
        ⟨false, low, { d1 with fs := (getCachePath p k d1.fs).2 }⟩
      else if p.write d1.imageSize ≠ d1.imageSize then
        ⟨false, low,
          { d1 with
              fs := (getCachePath p k d1.fs).2.create (blobPath k)
                (((d1.imageBuffer.getD []).take d1.imageSize).take (p.write d1.imageSize)) }⟩
      else
        ⟨true, low,
          { d1 with
              fs := (getCachePath p k d1.fs).2.create (blobPath k)
                ((d1.imageBuffer.getD []).take d1.imageSize),
              entries := Function.update d1.entries d1.writeIndex ⟨k, true⟩,
              writeIndex := (d1.writeIndex + 1) % NROFIMAGESTOSHOW }⟩ := by
  unfold storeStep
  dsimp only
  cases hbuf : d1.imageBuffer with
  | none => simp
  | some bytes =>
    by_cases hz : d1.imageSize = 0
    · simp [hz]
    · by_cases ho : p.openWrite (blobPath k) = true
      · by_cases hw : p.write d1.imageSize = d1.imageSize
        · simp [hz, ho, hw, hbuf, List.take_take]
        · simp [hz, ho, hw, hbuf]
      · simp [hz, ho]

/-- The four ways through `cacheImage`, over the state its space check
leaves. -/
theorem cacheImage_cases (p : Platform) (k : String) (d : Device) :
    cacheImage p k d =
      if d.imageBuffer = none ∨ d.imageSize = 0 then
        ⟨false, spaceLow p.usedBytes d.imageSize p.totalBytes, afterSpaceCheck p d⟩
      else if p.openWrite (blobPath k) = false then
        ⟨false, spaceLow p.usedBytes d.imageSize p.totalBytes,
          { afterSpaceCheck p d with fs := (getCachePath p k (afterSpaceCheck p d).fs).2 }⟩
      else if p.write d.imageSize ≠ d.imageSize then
        ⟨false, spaceLow p.usedBytes d.imageSize p.totalBytes,
          { afterSpaceCheck p d with
              fs := (getCachePath p k (afterSpaceCheck p d).fs).2.create (blobPath k)
                (((d.imageBuffer.getD []).take d.imageSize).take (p.write d.imageSize)) }⟩
      else
        ⟨true, spaceLow p.usedBytes d.imageSize p.totalBytes,
          { afterSpaceCheck p d with
              fs := (getCachePath p k (afterSpaceCheck p d).fs).2.create (blobPath k)
                ((d.imageBuffer.getD []).take d.imageSize),
              entries := Function.update (afterSpaceCheck p d).entries
                (afterSpaceCheck p d).writeIndex ⟨k, true⟩,
              writeIndex := ((afterSpaceCheck p d).writeIndex + 1) % NROFIMAGESTOSHOW }⟩ := by
  obtain ⟨hb, hs⟩ := afterSpaceCheck_frame p d
  rw [cacheImage_eq_storeStep, storeStep_cases]
  simp only [hb, hs]

/-- Success of `cacheImage`: it returns true exactly when the buffer is there and not empty,
the blob file opens, and the write reports all the bytes. -/
theorem cacheImage_ok_iff (p : Platform) (k : String) (d : Device) :
    (cacheImage p k d).ok = true ↔
      d.imageBuffer ≠ none ∧ d.imageSize ≠ 0 ∧ p.openWrite (blobPath k) = true ∧
        p.write d.imageSize = d.imageSize := by
  rw [cacheImage_cases]
  cases hbuf : d.imageBuffer with
  | none => simp
  | some bytes =>
    by_cases hz : d.imageSize = 0
    · simp [hz]
    · by_cases ho : p.openWrite (blobPath k) = true
      · by_cases hw : p.write d.imageSize = d.imageSize
        · simp [hz, ho, hw]
        · simp [hz, ho, hw]
      · simp [hz, ho]

/-- What `cacheImage` leaves of the other blobs, of the buffer, and of the
ring away from the slot it writes. -/
theorem cacheImage_frame (p : Platform) (k : String) (d : Device) :
    (∀ q, q ≠ blobPath k →
        (cacheImage p k d).dev.fs.read q = (afterSpaceCheck p d).fs.read q) ∧
      (cacheImage p k d).dev.imageBuffer = d.imageBuffer ∧
      (cacheImage p k d).dev.imageSize = d.imageSize ∧
      (∀ i, i ≠ (afterSpaceCheck p d).writeIndex →
        (cacheImage p k d).dev.entries i = (afterSpaceCheck p d).entries i) := by
  obtain ⟨hb, hs⟩ := afterSpaceCheck_frame p d
  rw [cacheImage_cases]
  split_ifs
  · exact ⟨fun _ _ => rfl, hb, hs, fun _ _ => rfl⟩
  · exact ⟨fun q _ => read_getCachePath p k q _, hb, hs, fun _ _ => rfl⟩
  · refine ⟨fun q hq => ?_, hb, hs, fun _ _ => rfl⟩
    dsimp only
    rw [read_create, if_neg hq, read_getCachePath]
  · refine ⟨fun q hq => ?_, hb, hs, fun i hi => ?_⟩
    · dsimp only
      rw [read_create, if_neg hq, read_getCachePath]
    · dsimp only
      rw [Function.update_noteq hi]

/-- A `cacheImage` that returns false records nothing in the ring. -/
theorem cacheImage_fail_entries (p : Platform) (k : String) (d : Device)
    (h : (cacheImage p k d).ok = false) :
    (cacheImage p k d).dev.entries = (afterSpaceCheck p d).entries ∧
      (cacheImage p k d).dev.writeIndex = (afterSpaceCheck p d).writeIndex := by
  rw [cacheImage_cases] at h ⊢
  split_ifs at h ⊢ <;> exact ⟨rfl, rfl⟩

/-- The ring and the cursor after a `cacheImage` that returns true. -/
theorem cacheImage_ok_entries (p : Platform) (k : String) (d : Device)
    (h : (cacheImage p k d).ok = true) :
    (cacheImage p k d).dev.entries =
        Function.update (afterSpaceCheck p d).entries (afterSpaceCheck p d).writeIndex ⟨k, true⟩ ∧
      (cacheImage p k d).dev.writeIndex =
        ((afterSpaceCheck p d).writeIndex + 1) % NROFIMAGESTOSHOW := by
  rw [cacheImage_cases] at h ⊢
  split_ifs at h ⊢
  exact ⟨rfl, rfl⟩

/-! ## loadImage -/

theorem loadImage_of_absent (p : Platform) (k : String) (d : Device)
    (h : d.fs.read (blobPath k) = none) :
    loadImage p k d = (false, { d with fs := (getCachePath p k d.fs).2 }) := by
  unfold loadImage
  simp [h]

theorem loadImage_of_blob (p : Platform) (k : String) (d : Device) (content : List Byte)
    (h : d.fs.read (blobPath k) = some content) :
    loadImage p k d =
      if p.openRead (blobPath k) = true then
        if p.malloc content.length = true then
          (true, { d with fs := (getCachePath p k d.fs).2, imageSize := content.length,
                          imageBuffer := some content })
        else
          (false, { d with fs := (getCachePath p k d.fs).2, imageSize := content.length,
                           imageBuffer := none })
      else (false, { d with fs := (getCachePath p k d.fs).2 }) := by
  unfold loadImage
  by_cases ho : p.openRead (blobPath k) = true
  · by_cases hm : p.malloc content.length = true
    · simp [h, ho, hm]
    · simp [h, ho, hm]
  · simp [h, ho]

/-- The blob a successful `cacheImage` leaves under the key. -/
theorem cacheImage_blob (p : Platform) (k : String) (d : Device)
    (hok : (cacheImage p k d).ok = true) :
    (cacheImage p k d).dev.fs.read (blobPath k) =
      some ((d.imageBuffer.getD []).take d.imageSize) := by
  obtain ⟨h1, h2, h3, h4⟩ := (cacheImage_ok_iff p k d).mp hok
  rw [cacheImage_cases]
  simp [h1, h2, h3, h4]

/-! ## Sequences of admits -/

theorem begin_writeIndex (m : Mount) (d : Device) : (begin m d).2.writeIndex = d.writeIndex := by
  unfold begin
  split_ifs <;> rfl

/-- One admit that returns true without running `cleanup`. -/
theorem quiet_admission (c : Call) (d : Device)
    (hok : (admitBytes c.platform c.key c.bytes d).ok = true)
    (hq : (admitBytes c.platform c.key c.bytes d).cleaned = false) :
    (admitBytes c.platform c.key c.bytes d).dev.entries =
        Function.update d.entries d.writeIndex ⟨c.key, true⟩ ∧
      (admitBytes c.platform c.key c.bytes d).dev.writeIndex = (d.writeIndex + 1) % NROFIMAGESTOSHOW ∧
      ∀ q, (admitBytes c.platform c.key c.bytes d).dev.fs.read q =
        if q = blobPath c.key then some c.bytes else d.fs.read q := by
  unfold admitBytes at hok hq ⊢
  have hlow : spaceLow c.platform.usedBytes c.bytes.length c.platform.totalBytes = false := by
    rw [cacheImage_cleaned] at hq
    exact hq
  have hsame : afterSpaceCheck c.platform
      { d with imageBuffer := some c.bytes, imageSize := c.bytes.length }
      = { d with imageBuffer := some c.bytes, imageSize := c.bytes.length } := by
    unfold afterSpaceCheck
    simp [hlow]
  obtain ⟨he, hw⟩ := cacheImage_ok_entries _ _ _ hok
  rw [hsame] at he hw
  refine ⟨he, hw, fun q => ?_⟩
  by_cases hqk : q = blobPath c.key
  · rw [if_pos hqk, hqk, cacheImage_blob _ _ _ hok]
    simp
  · rw [if_neg hqk, (cacheImage_frame _ _ _).1 q hqk, hsame]

theorem afterAdmits_append (xs ys : List Call) : ∀ d : Device,
    afterAdmits (xs ++ ys) d = afterAdmits ys (afterAdmits xs d) := by
  induction xs with
  | nil => intro d; rfl
  | cons c cs ih => intro d; exact ih _

theorem allAdmitted_append (xs ys : List Call) : ∀ d : Device,
    allAdmitted (xs ++ ys) d = (allAdmitted xs d && allAdmitted ys (afterAdmits xs d)) := by
  induction xs with
  | nil => intro d; rfl
  | cons c cs ih =>
    intro d
    show ((admitBytes c.platform c.key c.bytes d).ok
        && allAdmitted (cs ++ ys) (admitBytes c.platform c.key c.bytes d).dev) = _
    rw [ih]
    simp only [allAdmitted, afterAdmits, Bool.and_assoc]

theorem noneEvicted_append (xs ys : List Call) : ∀ d : Device,
    noneEvicted (xs ++ ys) d = (noneEvicted xs d && noneEvicted ys (afterAdmits xs d)) := by
  induction xs with
  | nil => intro d; rfl
  | cons c cs ih =>
    intro d
    show (!(admitBytes c.platform c.key c.bytes d).cleaned
        && noneEvicted (cs ++ ys) (admitBytes c.platform c.key c.bytes d).dev) = _
    rw [ih]
    simp only [noneEvicted, afterAdmits, Bool.and_assoc]

/-- A run of successful admits without eviction advances the cursor by its
length and leaves the blobs of other keys alone. -/
theorem afterAdmits_quiet (cs : List Call) : ∀ d : Device,
    allAdmitted cs d = true → noneEvicted cs d = true → d.writeIndex < NROFIMAGESTOSHOW →
    (afterAdmits cs d).writeIndex = (d.writeIndex + cs.length) % NROFIMAGESTOSHOW ∧
      ∀ q, (∀ c ∈ cs, q ≠ blobPath c.key) → (afterAdmits cs d).fs.read q = d.fs.read q := by
  induction cs with
  | nil =>
    intro d _ _ hw
    exact ⟨(Nat.mod_eq_of_lt hw).symm, fun _ _ => rfl⟩
  | cons c cs ih =>
    intro d hadm hquiet hw
    simp only [allAdmitted, Bool.and_eq_true] at hadm
    simp only [noneEvicted, Bool.and_eq_true, Bool.not_eq_true'] at hquiet
    obtain ⟨_, hw1, hr1⟩ := quiet_admission c d hadm.1 hquiet.1
    have hlt : (admitBytes c.platform c.key c.bytes d).dev.writeIndex < NROFIMAGESTOSHOW := by
      rw [hw1]
      exact Nat.mod_lt _ (by decide)
    obtain ⟨hw2, hr2⟩ := ih _ hadm.2 hquiet.2 hlt
    refine ⟨?_, fun q hq => ?_⟩
    · show (afterAdmits cs _).writeIndex = _
      rw [hw2, hw1, List.length_cons, Nat.mod_add_mod]
      congr 1
      omega
    · show (afterAdmits cs _).fs.read q = _
      rw [hr2 q (fun c' hc' => hq c' (List.mem_cons_of_mem _ hc')), hr1 q,
        if_neg (hq c (List.mem_cons_self _ _))]

/-! ## Claims -/

/-- C1 (as amended): after a `cacheImage(k)` that returned true over a buffer
holding at least `imageSize` bytes, with or without an eviction first, the
blob file of `k` exists, and a `loadImage(k)` whose open and allocation
succeed returns true with `imageSize` unchanged and the buffer equal to the
first `imageSize` bytes of the old one. -/
theorem C1_store_then_load (pa pl : Platform) (k : String) (buf : List Byte) (d : Device)
    (hbuf : d.imageBuffer = some buf) (hlen : d.imageSize ≤ buf.length)
    (hok : (cacheImage pa k d).ok = true)
    (hopen : pl.openRead (blobPath k) = true)
    (hmalloc : pl.malloc d.imageSize = true) :
    (cacheImage pa k d).dev.fs.pathExists (blobPath k) = true ∧
      (loadImage pl k (cacheImage pa k d).dev).1 = true ∧
      (loadImage pl k (cacheImage pa k d).dev).2.imageSize = d.imageSize ∧
      (loadImage pl k (cacheImage pa k d).dev).2.imageBuffer = some (buf.take d.imageSize) := by
  have hblob : (cacheImage pa k d).dev.fs.read (blobPath k) = some (buf.take d.imageSize) := by
    rw [cacheImage_blob pa k d hok, hbuf]
    rfl
  have htake : (buf.take d.imageSize).length = d.imageSize := by
    rw [List.length_take]
    exact Nat.min_eq_left hlen
  refine ⟨?_, ?_⟩
  · rw [pathExists_blobPath, hblob]
    rfl
  · rw [loadImage_of_blob pl k _ _ hblob, htake, if_pos hopen, if_pos hmalloc]
    exact ⟨rfl, rfl, rfl⟩

set_option maxRecDepth 8000 in
/-- C1, witness: a two-byte image stored under space pressure (the eviction
runs first) and read back. -/
theorem C1_store_then_load_witness :
    (cacheImage (Platform.sound 950 1000) "20250109-0630" holdingImage).cleaned = true ∧
      (loadImage (Platform.sound 2 1000) "20250109-0630"
        (cacheImage (Platform.sound 950 1000) "20250109-0630" holdingImage).dev).2.imageBuffer
        = some [9, 9] :=
  ⟨by decide,
   (C1_store_then_load (Platform.sound 950 1000) (Platform.sound 2 1000) "20250109-0630" [9, 9]
      holdingImage rfl (by decide) (by decide) rfl rfl).2.2.2⟩

/-- C1 as stated fails: every filesystem operation succeeds and `cacheImage`
returns true, yet the following `loadImage` returns false, because its
`malloc` fails. -/
theorem C1_counterexample :
    (cacheImage (Platform.sound 0 1000) "20250109-0630" holdingImage).ok = true ∧
      (Platform.noHeap 2 1000).openRead (blobPath "20250109-0630") = true ∧
      (loadImage (Platform.noHeap 2 1000) "20250109-0630"
        (cacheImage (Platform.sound 0 1000) "20250109-0630" holdingImage).dev).1 = false := by
  decide

/-- C2: when no blob is stored for the key, the existence check `loadImage`
makes on `getCachePath(k)` is false, `loadImage` returns false, and the
buffer pointer, its contents and `imageSize` are what they were. -/
theorem C2_load_miss (p : Platform) (k : String) (d : Device)
    (h : d.fs.read (blobPath k) = none) :
    (getCachePath p k d.fs).2.pathExists (getCachePath p k d.fs).1 = false ∧
      (loadImage p k d).1 = false ∧
      (loadImage p k d).2.imageBuffer = d.imageBuffer ∧
      (loadImage p k d).2.imageSize = d.imageSize := by
  rw [loadImage_of_absent p k d h]
  refine ⟨?_, rfl, rfl, rfl⟩
  rw [getCachePath_fst, pathExists_blobPath, read_getCachePath, h]
  rfl

/-- C2, witness: a miss on the freshly formatted store with an image in the
buffer. -/
theorem C2_load_miss_witness :
    (loadImage (Platform.sound 0 1000) "20250109-0630"
        { Device.boot SPIFFS.formatted with imageBuffer := some [7], imageSize := 1 }).1 = false ∧
      (loadImage (Platform.sound 0 1000) "20250109-0630"
        { Device.boot SPIFFS.formatted with imageBuffer := some [7], imageSize := 1 }).2.imageBuffer
        = some [7] :=
  ⟨(C2_load_miss (Platform.sound 0 1000) "20250109-0630"
      { Device.boot SPIFFS.formatted with imageBuffer := some [7], imageSize := 1 } rfl).2.1,
   (C2_load_miss (Platform.sound 0 1000) "20250109-0630"
      { Device.boot SPIFFS.formatted with imageBuffer := some [7], imageSize := 1 } rfl).2.2.1⟩

/-- C3: from an initialised cache, after any sequence of successful admits
(of any length), a `cleanup()` in which no deletion fails leaves no blob file
of an admitted key, all `CACHE_SIZE` ring slots invalid, and `writeIndex = 0`. -/
theorem C3_cleanup_after_admits (m : Mount) (fs : SPIFFS) (calls : List Call) (pc : Platform)
    (_hbegin : (begin m (Device.boot fs)).1 = true)
    (_hadm : allAdmitted calls (begin m (Device.boot fs)).2 = true)
    (hrm : ∀ path, pc.remove path = true) :
    (∀ c ∈ calls,
        (cleanup pc (afterAdmits calls (begin m (Device.boot fs)).2)).1.fs.pathExists
          (blobPath c.key) = false) ∧
      (∀ i, i < CACHE_SIZE →
        ((cleanup pc (afterAdmits calls (begin m (Device.boot fs)).2)).1.entries i).valid = false) ∧
      (cleanup pc (afterAdmits calls (begin m (Device.boot fs)).2)).1.writeIndex = 0 := by
  refine ⟨?_, ?_, (cleanup_frame pc _).2.2⟩
  · intro c _
    rw [pathExists_blobPath, cleanup_read_none pc _ hrm]
    rfl
  · intro i hi
    rw [cleanup_entries, if_pos hi]

set_option maxRecDepth 8000 in
/-- C3, witness: 49 admits, one more than the ring tracks; the first key is
no longer in slot 0, its blob is still stored, and `cleanup` removes it. -/
theorem C3_cleanup_after_admits_witness :
    ((afterAdmits (numbered 0 :: (fortySeven ++ [numbered 48]))
        (Device.started SPIFFS.formatted)).entries 0).timestamp = "1048" ∧
      (afterAdmits (numbered 0 :: (fortySeven ++ [numbered 48]))
        (Device.started SPIFFS.formatted)).fs.pathExists (blobPath "1000") = true ∧
      (cleanup (Platform.sound 49 1000000)
        (afterAdmits (numbered 0 :: (fortySeven ++ [numbered 48]))
          (Device.started SPIFFS.formatted))).1.fs.pathExists (blobPath "1000") = false ∧
      (cleanup (Platform.sound 49 1000000)
        (afterAdmits (numbered 0 :: (fortySeven ++ [numbered 48]))
          (Device.started SPIFFS.formatted))).1.writeIndex = 0 :=
  by
  have h := C3_cleanup_after_admits ⟨true, true, true⟩ SPIFFS.formatted
    (numbered 0 :: (fortySeven ++ [numbered 48])) (Platform.sound 49 1000000)
    rfl (by decide) (fun _ => rfl)
  exact ⟨by decide, by decide, h.1 (numbered 0) (List.mem_cons_self _ _), h.2.2⟩

set_option maxRecDepth 8000 in
/-- C4, the code at the failing input: after one successful admit, `cleanup`
(no deletion failing) deletes the blob file, and the `filesRemoved` it prints
is 0, not 1. -/
theorem C4_filesRemoved_is_zero :
    (admitBytes (Platform.sound 0 1000) "20250109-0630" [1] (Device.started SPIFFS.formatted)).ok = true ∧
      oneAdmitted.fs.pathExists (blobPath "20250109-0630") = true ∧
      (cleanup (Platform.sound 1 1000) oneAdmitted).1.fs.pathExists (blobPath "20250109-0630")
        = false ∧
      (cleanup (Platform.sound 1 1000) oneAdmitted).2 = 0 := by
  decide

/-- The shape of the cache after `NROFIMAGESTOSHOW + 1` successful admits of
distinct keys without eviction: slot 0 holds the last key, the cursor is 1,
and the first blob is still stored. -/
theorem ring_wraps (m : Mount) (fs : SPIFFS) (first last : Call) (middle : List Call)
    (hlen : middle.length + 2 = NROFIMAGESTOSHOW + 1)
    (hkeys : ((first :: (middle ++ [last])).map Call.key).Nodup)
    (hadm : allAdmitted (first :: (middle ++ [last])) (begin m (Device.boot fs)).2 = true)
    (hquiet : noneEvicted (first :: (middle ++ [last])) (begin m (Device.boot fs)).2 = true) :
    (afterAdmits (first :: (middle ++ [last])) (begin m (Device.boot fs)).2).entries 0
        = ⟨last.key, true⟩ ∧
      last.key ≠ first.key ∧
      (afterAdmits (first :: (middle ++ [last])) (begin m (Device.boot fs)).2).writeIndex = 1 ∧
      (afterAdmits (first :: (middle ++ [last])) (begin m (Device.boot fs)).2).fs.read
        (blobPath first.key) = some first.bytes := by
  have hw0 : (begin m (Device.boot fs)).2.writeIndex = 0 := begin_writeIndex m _
  generalize (begin m (Device.boot fs)).2 = d0 at hw0 hadm hquiet ⊢
  -- the keys are pairwise distinct
  simp only [List.map_cons, List.map_append, List.map_nil, List.nodup_cons, List.mem_append,
    List.mem_map, List.mem_singleton, not_or, List.nodup_append] at hkeys
  obtain ⟨⟨hfm, hfl⟩, _⟩ := hkeys
  have hfm2 : ∀ c ∈ middle, blobPath first.key ≠ blobPath c.key := by
    intro c hc e
    exact hfm ⟨c, hc, (blobPath_injective e).symm⟩
  have hfl2 : blobPath first.key ≠ blobPath last.key := fun e => hfl (blobPath_injective e)
  -- split the run into first, middle, last
  simp only [allAdmitted, Bool.and_eq_true] at hadm
  simp only [noneEvicted, Bool.and_eq_true, Bool.not_eq_true'] at hquiet
  obtain ⟨hok1, hrest⟩ := hadm
  obtain ⟨hq1, hqrest⟩ := hquiet
  rw [allAdmitted_append, Bool.and_eq_true] at hrest
  rw [noneEvicted_append, Bool.and_eq_true] at hqrest
  obtain ⟨_, hw1, hr1⟩ := quiet_admission first d0 hok1 hq1
  have hfinal : afterAdmits (first :: (middle ++ [last])) d0 =
      (admitBytes last.platform last.key last.bytes
        (afterAdmits middle (admitBytes first.platform first.key first.bytes d0).dev)).dev := by
    show afterAdmits (middle ++ [last]) _ = _
    rw [afterAdmits_append]
    rfl
  generalize (admitBytes first.platform first.key first.bytes d0).dev = d1
    at hw1 hr1 hrest hqrest hfinal
  have hw1' : d1.writeIndex = 1 := by rw [hw1, hw0]; decide
  have hlt1 : d1.writeIndex < NROFIMAGESTOSHOW := by rw [hw1']; decide
  obtain ⟨hw2, hr2⟩ := afterAdmits_quiet middle d1 hrest.1 hqrest.1 hlt1
  have hw2' : (afterAdmits middle d1).writeIndex = 0 := by
    have hm : middle.length = 47 := by
      have : NROFIMAGESTOSHOW = 48 := rfl
      omega
    rw [hw2, hw1', hm]
    decide
  have hl := hrest.2
  have hql := hqrest.2
  simp only [allAdmitted, Bool.and_true] at hl
  simp only [noneEvicted, Bool.and_true, Bool.not_eq_true'] at hql
  obtain ⟨he3, hw3, hr3⟩ := quiet_admission last (afterAdmits middle d1) hl hql
  rw [hfinal]
  refine ⟨?_, fun e => hfl e.symm, ?_, ?_⟩
  · rw [he3, hw2', Function.update_same]
  · rw [hw3, hw2']
    decide
  · rw [hr3, if_neg hfl2, hr2 _ hfm2, hr1, if_pos rfl]

/-- C5 (as amended): after `NROFIMAGESTOSHOW + 1` successful admits of
pairwise distinct keys from an initialised cache, none of which ran
`cleanup`, ring slot 0 holds the last key, valid, not the first key, and
`writeIndex = 1`; the blob file of the first key still exists, and
`loadImage(firstKey)` returns true whenever its open for reading and its
allocation succeed. -/
theorem C5_ring_overwrite (m : Mount) (fs : SPIFFS) (first last : Call) (middle : List Call)
    (pl : Platform)
    (_hbegin : (begin m (Device.boot fs)).1 = true)
    (hlen : middle.length + 2 = NROFIMAGESTOSHOW + 1)
    (hkeys : ((first :: (middle ++ [last])).map Call.key).Nodup)
    (hadm : allAdmitted (first :: (middle ++ [last])) (begin m (Device.boot fs)).2 = true)
    (hquiet : noneEvicted (first :: (middle ++ [last])) (begin m (Device.boot fs)).2 = true)
    (hopen : pl.openRead (blobPath first.key) = true)
    (hmalloc : pl.malloc first.bytes.length = true) :
    (afterAdmits (first :: (middle ++ [last])) (begin m (Device.boot fs)).2).entries 0
        = ⟨last.key, true⟩ ∧
      ((afterAdmits (first :: (middle ++ [last])) (begin m (Device.boot fs)).2).entries 0).timestamp
        ≠ first.key ∧
      (afterAdmits (first :: (middle ++ [last])) (begin m (Device.boot fs)).2).writeIndex = 1 ∧
      (afterAdmits (first :: (middle ++ [last])) (begin m (Device.boot fs)).2).fs.pathExists
        (blobPath first.key) = true ∧
      (loadImage pl first.key
        (afterAdmits (first :: (middle ++ [last])) (begin m (Device.boot fs)).2)).1 = true := by
  obtain ⟨h0, hne, hw, hblob⟩ := ring_wraps m fs first last middle hlen hkeys hadm hquiet
  refine ⟨h0, ?_, hw, ?_, ?_⟩
  · rw [h0]
    exact hne
  · rw [pathExists_blobPath, hblob]
    rfl
  · rw [loadImage_of_blob pl first.key _ first.bytes hblob, if_pos hopen, if_pos hmalloc]

set_option maxRecDepth 8000 in
/-- C5, witness: 49 one-byte admits under the keys 1000 to 1048. -/
theorem C5_ring_overwrite_witness :
    (afterAdmits (numbered 0 :: (fortySeven ++ [numbered 48]))
        (Device.started SPIFFS.formatted)).entries 0 = ⟨"1048", true⟩ ∧
      (loadImage (Platform.sound 49 1000000) "1000"
        (afterAdmits (numbered 0 :: (fortySeven ++ [numbered 48]))
          (Device.started SPIFFS.formatted))).1 = true :=
  by
  have h := C5_ring_overwrite ⟨true, true, true⟩ SPIFFS.formatted (numbered 0) (numbered 48)
    fortySeven (Platform.sound 49 1000000) rfl (by decide) (by decide) (by decide) (by decide)
    rfl rfl
  exact ⟨h.1, h.2.2.2.2⟩

set_option maxRecDepth 8000 in
/-- C5 as stated fails: 49 admits of distinct keys succeed without eviction,
the first blob is still stored, and `loadImage(firstKey)` returns false
because its `malloc` fails. -/
theorem C5_counterexample :
    (numbered 0 :: (fortySeven ++ [numbered 48])).length = NROFIMAGESTOSHOW + 1 ∧
      ((numbered 0 :: (fortySeven ++ [numbered 48])).map Call.key).Nodup ∧
      allAdmitted (numbered 0 :: (fortySeven ++ [numbered 48]))
        (Device.started SPIFFS.formatted) = true ∧
      noneEvicted (numbered 0 :: (fortySeven ++ [numbered 48]))
        (Device.started SPIFFS.formatted) = true ∧
      (loadImage (Platform.noHeap 49 1000000) (numbered 0).key
        (afterAdmits (numbered 0 :: (fortySeven ++ [numbered 48]))
          (Device.started SPIFFS.formatted))).1 = false := by
  decide

/-- C6 as stated fails: 500 used bytes and an `imageSize` of 4294967295
exceed 90% of 1000 in exact arithmetic, but the `size_t` sum wraps to 499 and
`cacheImage` runs no eviction. -/
theorem C6_counterexample :
    9 * (1000 : Nat) < 10 * (500 + lengthUnknown.imageSize) ∧
      (cacheImage (Platform.sound 500 1000) "20250109-0630" lengthUnknown).cleaned = false := by
  decide

/-- C6 (as amended): when `totalBytes` is a `size_t` and the `size_t` sum
`usedBytes + imageSize` does not wrap, `cacheImage` runs `cleanup` before
writing exactly when `10 * (usedBytes + imageSize) > 9 * totalBytes` in exact
arithmetic (the double product `totalBytes * 0.9` decides the same); when it
runs, the other blobs are those `cleanup` leaves, and when it does not, every
other blob and every ring slot but the one written are kept. -/
theorem C6_space_rule (p : Platform) (k : String) (d : Device)
    (hT : p.totalBytes < SIZE_T_MOD) (hsum : p.usedBytes + d.imageSize < SIZE_T_MOD) :
    ((cacheImage p k d).cleaned = true ↔
        9 * p.totalBytes < 10 * (p.usedBytes + d.imageSize)) ∧
      (9 * p.totalBytes < 10 * (p.usedBytes + d.imageSize) →
        ∀ q, q ≠ blobPath k →
          (cacheImage p k d).dev.fs.read q = (cleanup p d).1.fs.read q) ∧
      (¬ 9 * p.totalBytes < 10 * (p.usedBytes + d.imageSize) →
        (∀ q, q ≠ blobPath k → (cacheImage p k d).dev.fs.read q = d.fs.read q) ∧
        (∀ i, i ≠ d.writeIndex → (cacheImage p k d).dev.entries i = d.entries i)) := by
  have hlow : spaceLow p.usedBytes d.imageSize p.totalBytes = true ↔
      9 * p.totalBytes < 10 * (p.usedBytes + d.imageSize) := by
    unfold spaceLow
    rw [Nat.mod_eq_of_lt hsum]
    exact double_check_exact _ _ hT hsum
  obtain ⟨hread, _, _, hent⟩ := cacheImage_frame p k d
  refine ⟨?_, ?_, ?_⟩
  · rw [cacheImage_cleaned]
    exact hlow
  · intro hex q hq
    rw [hread q hq]
    unfold afterSpaceCheck
    rw [if_pos (hlow.mpr hex)]
  · intro hnex
    have hl : ¬ spaceLow p.usedBytes d.imageSize p.totalBytes = true := fun h => hnex (hlow.mp h)
    have hsame : afterSpaceCheck p d = d := by
      unfold afterSpaceCheck
      rw [if_neg hl]
    rw [hsame] at hread hent
    exact ⟨hread, hent⟩

/-- C6, witness: 50 used bytes of 100; an image of 41 bytes triggers the
eviction. -/
theorem C6_space_rule_witness :
    (cacheImage (Platform.sound 50 100) "20250109-0630"
        { Device.started SPIFFS.formatted with imageSize := 41 }).cleaned = true :=
  (C6_space_rule (Platform.sound 50 100) "20250109-0630"
      { Device.started SPIFFS.formatted with imageSize := 41 } (by decide) (by decide)).1.mpr
    (by decide)

/-- C7: `cacheImage` returns false when the buffer is null or `imageSize` is
0, when the blob file cannot be opened, and when the write reports a number
of bytes other than `imageSize`; in each case every slot valid afterwards
held the same entry, valid, before; and after a short write the file is left
in the store with the bytes written. -/
theorem C7_store_failures (p : Platform) (k : String) (d : Device)
    (h : d.imageBuffer = none ∨ d.imageSize = 0 ∨ p.openWrite (blobPath k) = false ∨
      p.write d.imageSize ≠ d.imageSize) :
    (cacheImage p k d).ok = false ∧
      (∀ i, ((cacheImage p k d).dev.entries i).valid = true →
        (cacheImage p k d).dev.entries i = d.entries i ∧ (d.entries i).valid = true) ∧
      (d.imageBuffer ≠ none → d.imageSize ≠ 0 → p.openWrite (blobPath k) = true →
        (cacheImage p k d).dev.fs.read (blobPath k) =
          some (((d.imageBuffer.getD []).take d.imageSize).take (p.write d.imageSize))) := by
  have hok : (cacheImage p k d).ok = false := by
    cases hc : (cacheImage p k d).ok with
    | false => rfl
    | true =>
      obtain ⟨h1, h2, h3, h4⟩ := (cacheImage_ok_iff p k d).mp hc
      rcases h with h | h | h | h
      · exact absurd h h1
      · exact absurd h h2
      · rw [h] at h3
        exact absurd h3 (by decide)
      · exact absurd h4 h
  refine ⟨hok, ?_, ?_⟩
  · intro i hv
    rw [(cacheImage_fail_entries p k d hok).1] at hv ⊢
    unfold afterSpaceCheck at hv ⊢
    split at hv
    · rw [cleanup_entries] at hv
      split at hv
      · simp at hv
      · rename_i hlow hi
        rw [if_pos hlow, cleanup_entries, if_neg hi]
        exact ⟨rfl, hv⟩
    · rename_i hlow
      rw [if_neg hlow]
      exact ⟨rfl, hv⟩
  · intro h1 h2 h3
    have h4 : p.write d.imageSize ≠ d.imageSize := by
      rcases h with h | h | h | h
      · exact absurd h h1
      · exact absurd h h2
      · rw [h3] at h
        exact absurd h (by decide)
      · exact h
    rw [cacheImage_cases]
    simp [h1, h2, h3, h4]

/-- C7, witness: a write of one byte out of two. -/
theorem C7_store_failures_witness :
    (admitBytes Platform.shortWrite "20250109-0630" [1, 2] (Device.started SPIFFS.formatted)).ok = false ∧
      (admitBytes Platform.shortWrite "20250109-0630" [1, 2]
        (Device.started SPIFFS.formatted)).dev.fs.read (blobPath "20250109-0630") = some [1] :=
  ⟨(C7_store_failures Platform.shortWrite "20250109-0630"
      { Device.started SPIFFS.formatted with imageBuffer := some [1, 2], imageSize := 2 }
      (Or.inr (Or.inr (Or.inr (by decide))))).1,
   (C7_store_failures Platform.shortWrite "20250109-0630"
      { Device.started SPIFFS.formatted with imageBuffer := some [1, 2], imageSize := 2 }
      (Or.inr (Or.inr (Or.inr (by decide))))).2.2 (by decide) (by decide) rfl⟩

/-- C8: when `loadImage(k)` returns true, `downloadImage(k)` returns true
with exactly the state `loadImage` leaves (store, ring, cursor, buffer), no
GET request issued and no `cacheImage` call made; the buffer holds the blob
stored for `k` and `imageSize` is its length. -/
theorem C8_cache_first (p : Platform) (net : Http) (k : String) (d : Device)
    (h : (loadImage p k d).1 = true) :
    downloadImage p net k d = some ⟨true, 0, none, (loadImage p k d).2⟩ ∧
      (loadImage p k d).2.imageBuffer = d.fs.read (blobPath k) ∧
      (∃ content, d.fs.read (blobPath k) = some content ∧
        (loadImage p k d).2.imageSize = content.length) ∧
      (∀ q, (loadImage p k d).2.fs.read q = d.fs.read q) ∧
      (loadImage p k d).2.entries = d.entries ∧
      (loadImage p k d).2.writeIndex = d.writeIndex := by
  refine ⟨?_, ?_⟩
  · unfold downloadImage
    rw [if_pos h]
  · cases hr : d.fs.read (blobPath k) with
    | none =>
      rw [loadImage_of_absent p k d hr] at h
      simp at h
    | some content =>
      rw [loadImage_of_blob p k d content hr] at h ⊢
      by_cases ho : p.openRead (blobPath k) = true
      · by_cases hm : p.malloc content.length = true
        · rw [if_pos ho, if_pos hm]
          exact ⟨rfl, ⟨content, rfl, rfl⟩, fun q => read_getCachePath p k q d.fs, rfl, rfl⟩
        · rw [if_pos ho, if_neg hm] at h
          simp at h
      · rw [if_neg ho] at h
        simp at h

/-- C8, witness: a cached one-byte image is resolved without the network. -/
theorem C8_cache_first_witness :
    downloadImage (Platform.sound 1 1000) Http.notFound "20250109-0630" oneAdmitted =
      some ⟨true, 0, none, (loadImage (Platform.sound 1 1000) "20250109-0630" oneAdmitted).2⟩ :=
  (C8_cache_first (Platform.sound 1 1000) Http.notFound "20250109-0630" oneAdmitted
    (by decide)).1

/-- C9: on a miss (no blob is stored for the key, or the blob cannot be
opened), when the GET returns a status other than OK, `downloadImage` returns
false after that one request, makes no `cacheImage` call, and leaves
`imageBuffer`, `imageSize`, the ring, the cursor and every blob as they
were. -/
theorem C9_network_error (p : Platform) (net : Http) (k : String) (d : Device)
    (hmiss : d.fs.read (blobPath k) = none ∨ p.openRead (blobPath k) = false)
    (hcode : net.code ≠ HTTP_CODE_OK) :
    ∃ r, downloadImage p net k d = some r ∧ r.ok = false ∧ r.gets = 1 ∧ r.admitted = none ∧
      r.dev.imageBuffer = d.imageBuffer ∧ r.dev.imageSize = d.imageSize ∧
      r.dev.entries = d.entries ∧ r.dev.writeIndex = d.writeIndex ∧
      ∀ q, r.dev.fs.read q = d.fs.read q := by
  refine ⟨⟨false, 1, none, { d with fs := (getCachePath p k d.fs).2 }⟩, ?_, rfl, rfl, rfl, rfl,
    rfl, rfl, rfl, fun q => read_getCachePath p k q d.fs⟩
  have hload : loadImage p k d = (false, { d with fs := (getCachePath p k d.fs).2 }) := by
    rcases hmiss with h | h
    · exact loadImage_of_absent p k d h
    · cases hr : d.fs.read (blobPath k) with
      | none => exact loadImage_of_absent p k d hr
      | some content =>
        rw [loadImage_of_blob p k d content hr, h]
        rfl
  unfold downloadImage
  rw [hload]
  simp [hcode]

/-- C9, witness: a 404 on a miss leaves the two-byte image in the buffer. -/
theorem C9_network_error_witness :
    ∃ r, downloadImage (Platform.sound 0 1000) Http.notFound "20250109-0630" holdingImage = some r ∧
      r.ok = false ∧ r.dev.imageBuffer = some [9, 9] ∧ r.dev.imageSize = 2 := by
  obtain ⟨r, h1, h2, _, _, h5, h6, _⟩ :=
    C9_network_error (Platform.sound 0 1000) Http.notFound "20250109-0630" holdingImage
      (Or.inl rfl) (by decide)
  exact ⟨r, h1, h2, h5, h6⟩

/-- C10, the code at the failing input: with the clock at 2025-01-09 06:45,
`getFormattedTime` gives `20250109-0630`, while the 48 calls of
`showLastXHours` start at `20250108-0700`, use every key three times (the
step is 10 minutes) and end at `20250108-1430`, sixteen hours short of the
current key. -/
theorem C10_replay_steps_ten_minutes :
    getFormattedTime sampleClock = "20250109-0630" ∧
      showLastXHours sampleClock (fun key calls => calls ++ [key]) [] =
        ["20250108-0700", "20250108-0700", "20250108-0700",
         "20250108-0730", "20250108-0730", "20250108-0730",
         "20250108-0800", "20250108-0800", "20250108-0800",
         "20250108-0830", "20250108-0830", "20250108-0830",
         "20250108-0900", "20250108-0900", "20250108-0900",
         "20250108-0930", "20250108-0930", "20250108-0930",
         "20250108-1000", "20250108-1000", "20250108-1000",
         "20250108-1030", "20250108-1030", "20250108-1030",
         "20250108-1100", "20250108-1100", "20250108-1100",
         "20250108-1130", "20250108-1130", "20250108-1130",
         "20250108-1200", "20250108-1200", "20250108-1200",
         "20250108-1230", "20250108-1230", "20250108-1230",
         "20250108-1300", "20250108-1300", "20250108-1300",
         "20250108-1330", "20250108-1330", "20250108-1330",
         "20250108-1400", "20250108-1400", "20250108-1400",
         "20250108-1430", "20250108-1430", "20250108-1430"] := by
  decide

/-! ## The write cursor -/

theorem invalidateFrom_valid : ∀ (n : Nat) (e : Nat → CacheEntry) (i j : Nat),
    (invalidateFrom e n i j).valid = true → (e j).valid = true := by
  intro n
  induction n with
  | zero => intro e i j h; exact h
  | succ n ih =>
    intro e i j h
    have h1 := ih _ (i + 1) j h
    by_cases hj : j = i
    · subst hj
      rw [Function.update_same] at h1
      exact absurd h1 (by simp)
    · rw [Function.update_noteq hj] at h1
      exact h1

theorem ringOk_begin (m : Mount) (fs : SPIFFS) : RingOk (begin m (Device.boot fs)).2 := by
  have hbase : ∀ (e : Nat → CacheEntry), (∀ j, (e j).valid = false) →
      ∀ n j, (invalidateFrom e n 0 j).valid = false := by
    intro e he n j
    cases hv : (invalidateFrom e n 0 j).valid with
    | false => rfl
    | true =>
      have := invalidateFrom_valid n e 0 j hv
      rw [he j] at this
      exact absurd this (by decide)
  have hboot : ∀ j, ((Device.boot fs).entries j).valid = false := fun _ => rfl
  refine ⟨?_, ?_⟩
  · rw [begin_writeIndex]
    exact (by decide : 0 < NROFIMAGESTOSHOW)
  · intro i _
    unfold begin
    generalize CACHE_SIZE = n
    split_ifs
    · exact hboot i
    · exact hboot i
    · exact hbase _ hboot n i
    · exact hbase _ hboot n i

theorem ringOk_cleanup (p : Platform) (d : Device) (h : RingOk d) : RingOk (cleanup p d).1 := by
  refine ⟨?_, ?_⟩
  · rw [(cleanup_frame p d).2.2]
    decide
  · intro i hi
    rw [cleanup_entries]
    split
    · rfl
    · exact h.2 i hi

theorem loadImage_ring (p : Platform) (k : String) (d : Device) :
    (loadImage p k d).2.entries = d.entries ∧ (loadImage p k d).2.writeIndex = d.writeIndex := by
  cases hr : d.fs.read (blobPath k) with
  | none =>
    rw [loadImage_of_absent p k d hr]
    exact ⟨rfl, rfl⟩
  | some content =>
    rw [loadImage_of_blob p k d content hr]
    split_ifs <;> exact ⟨rfl, rfl⟩

theorem ringOk_afterSpaceCheck (p : Platform) (d : Device) (h : RingOk d) :
    RingOk (afterSpaceCheck p d) := by
  unfold afterSpaceCheck
  split
  · exact ringOk_cleanup p d h
  · exact h

theorem ringOk_cacheImage (p : Platform) (k : String) (d : Device) (h : RingOk d) :
    RingOk (cacheImage p k d).dev := by
  obtain ⟨hw, he⟩ := ringOk_afterSpaceCheck p d h
  cases hok : (cacheImage p k d).ok with
  | false =>
    obtain ⟨h1, h2⟩ := cacheImage_fail_entries p k d hok
    refine ⟨?_, ?_⟩
    · rw [h2]
      exact hw
    · intro i hi
      rw [h1]
      exact he i hi
  | true =>
    obtain ⟨h1, h2⟩ := cacheImage_ok_entries p k d hok
    refine ⟨?_, ?_⟩
    · rw [h2]
      exact Nat.mod_lt _ (by decide)
    · intro i hi
      have hne : i ≠ (afterSpaceCheck p d).writeIndex := by omega
      rw [h1, Function.update_noteq hne]
      exact he i hi

theorem ringOk_run (op : Op) (d : Device) (h : RingOk d) : RingOk (op.run d) := by
  cases op with
  | callCacheImage p k => exact ringOk_cacheImage p k d h
  | callLoadImage p k =>
    obtain ⟨h1, h2⟩ := loadImage_ring p k d
    refine ⟨?_, ?_⟩
    · show (loadImage p k d).2.writeIndex < _
      rw [h2]
      exact h.1
    · intro i hi
      show ((loadImage p k d).2.entries i).valid = false
      rw [h1]
      exact h.2 i hi
  | callCleanup p => exact ringOk_cleanup p d h
  | assignBuffer b n => exact h

theorem ringOk_runOps (ops : List Op) : ∀ d : Device, RingOk d → RingOk (runOps ops d) := by
  induction ops with
  | nil => intro d h; exact h
  | cons op ops ih => intro d h; exact ih _ (ringOk_run op d h)

/-- The slot and the cursor of a `cacheImage` that returns true: over the old
cursor when no eviction ran, over slot 0 when one did. -/
theorem cacheImage_cursor (p : Platform) (k : String) (d : Device)
    (hok : (cacheImage p k d).ok = true) :
    ((cacheImage p k d).cleaned = false →
        (cacheImage p k d).dev.writeIndex = (d.writeIndex + 1) % NROFIMAGESTOSHOW ∧
        (cacheImage p k d).dev.entries d.writeIndex = ⟨k, true⟩) ∧
      ((cacheImage p k d).cleaned = true →
        (cacheImage p k d).dev.writeIndex = 1 ∧
        (cacheImage p k d).dev.entries 0 = ⟨k, true⟩) := by
  obtain ⟨h1, h2⟩ := cacheImage_ok_entries p k d hok
  rw [cacheImage_cleaned]
  refine ⟨fun hlow => ?_, fun hlow => ?_⟩
  · have hsame : afterSpaceCheck p d = d := by
      unfold afterSpaceCheck
      simp [hlow]
    rw [hsame] at h1 h2
    rw [h1, h2, Function.update_same]
    exact ⟨rfl, rfl⟩
  · have hw : (afterSpaceCheck p d).writeIndex = 0 := by
      unfold afterSpaceCheck
      rw [if_pos hlow]
      exact (cleanup_frame p d).2.2
    rw [hw] at h1 h2
    rw [h1, h2, Function.update_same]
    exact ⟨by decide, rfl⟩

set_option maxRecDepth 8000 in
/-- C11 as stated fails: from the reachable state with `writeIndex = 1`, a
`cacheImage` under space pressure returns true, but the eviction it ran first
reset the cursor: the entry is in slot 0, slot 1 is invalid, and `writeIndex`
is 1, not `(1 + 1) mod 48 = 2`. -/
theorem C11_counterexample :
    oneStored.writeIndex = 1 ∧
      (cacheImage (Platform.sound 950 1000) "20250109-0700" oneStored).ok = true ∧
      (oneStored.writeIndex + 1) % NROFIMAGESTOSHOW = 2 ∧
      (cacheImage (Platform.sound 950 1000) "20250109-0700" oneStored).dev.writeIndex = 1 ∧
      ((cacheImage (Platform.sound 950 1000) "20250109-0700" oneStored).dev.entries
        oneStored.writeIndex).valid = false ∧
      (cacheImage (Platform.sound 950 1000) "20250109-0700" oneStored).dev.entries 0
        = ⟨"20250109-0700", true⟩ := by
  decide

/-- C11 (as amended): in every state reached from `begin()` by calls of
`cacheImage`, `loadImage` and `cleanup` (and assignments of the shared
buffer), `writeIndex < NROFIMAGESTOSHOW <= CACHE_SIZE` and no slot from
`NROFIMAGESTOSHOW` on is valid; a `cacheImage` that returns true there
without running the eviction writes `{key, valid = true}` at the old
`writeIndex` and sets `writeIndex` to `(old + 1) mod NROFIMAGESTOSHOW`, and
one that ran the eviction first writes at slot 0 and sets `writeIndex` to 1. -/
theorem C11_write_cursor (m : Mount) (fs : SPIFFS) (ops : List Op)
    (_hbegin : (begin m (Device.boot fs)).1 = true) :
    (runOps ops (begin m (Device.boot fs)).2).writeIndex < NROFIMAGESTOSHOW ∧
      NROFIMAGESTOSHOW ≤ CACHE_SIZE ∧
      (∀ i, NROFIMAGESTOSHOW ≤ i →
        ((runOps ops (begin m (Device.boot fs)).2).entries i).valid = false) ∧
      ∀ (p : Platform) (k : String),
        (cacheImage p k (runOps ops (begin m (Device.boot fs)).2)).ok = true →
        ((cacheImage p k (runOps ops (begin m (Device.boot fs)).2)).cleaned = false →
          (cacheImage p k (runOps ops (begin m (Device.boot fs)).2)).dev.writeIndex =
            ((runOps ops (begin m (Device.boot fs)).2).writeIndex + 1) % NROFIMAGESTOSHOW ∧
          (cacheImage p k (runOps ops (begin m (Device.boot fs)).2)).dev.entries
            (runOps ops (begin m (Device.boot fs)).2).writeIndex = ⟨k, true⟩) ∧
        ((cacheImage p k (runOps ops (begin m (Device.boot fs)).2)).cleaned = true →
          (cacheImage p k (runOps ops (begin m (Device.boot fs)).2)).dev.writeIndex = 1 ∧
          (cacheImage p k (runOps ops (begin m (Device.boot fs)).2)).dev.entries 0
            = ⟨k, true⟩) := by
  obtain ⟨hw, he⟩ := ringOk_runOps ops _ (ringOk_begin m fs)
  exact ⟨hw, by decide, he, fun p k hok => cacheImage_cursor p k _ hok⟩

set_option maxRecDepth 8000 in
/-- C11, witness: after one store the cursor is in range, and a second store
without eviction writes at the old cursor and advances it. -/
theorem C11_write_cursor_witness :
    oneStored.writeIndex < NROFIMAGESTOSHOW ∧
      (cacheImage (Platform.sound 1 1000) "20250109-0700" oneStored).dev.writeIndex =
        (oneStored.writeIndex + 1) % NROFIMAGESTOSHOW ∧
      (cacheImage (Platform.sound 1 1000) "20250109-0700" oneStored).dev.entries
        oneStored.writeIndex = ⟨"20250109-0700", true⟩ := by
  have h := C11_write_cursor ⟨true, true, true⟩ SPIFFS.formatted
    [Op.assignBuffer (some [1]) 1, Op.callCacheImage (Platform.sound 0 1000) "20250109-0630"]
    rfl
  have h2 := (h.2.2.2 (Platform.sound 1 1000) "20250109-0700" (by decide)).1 (by decide)
  exact ⟨h.1, h2.1, h2.2⟩

/-- C12: when the used space is above 90% of the total and the buffer is null
or `imageSize` is 0, `cacheImage` returns false after having run `cleanup`:
the state left is the one `cleanup` leaves, so (no deletion failing) every
blob is deleted, every ring slot is invalid and `writeIndex` is 0. -/
theorem C12_rejected_store_evicts (p : Platform) (k : String) (d : Device)
    (hT : p.totalBytes < SIZE_T_MOD) (hsum : p.usedBytes + d.imageSize < SIZE_T_MOD)
    (hfull : 9 * p.totalBytes < 10 * p.usedBytes)
    (hrej : d.imageBuffer = none ∨ d.imageSize = 0)
    (hrm : ∀ path, p.remove path = true) :
    (cacheImage p k d).ok = false ∧
      (cacheImage p k d).cleaned = true ∧
      (cacheImage p k d).dev = (cleanup p d).1 ∧
      (∀ q, (cacheImage p k d).dev.fs.read q = none) ∧
      (∀ i, i < CACHE_SIZE → ((cacheImage p k d).dev.entries i).valid = false) ∧
      (cacheImage p k d).dev.writeIndex = 0 := by
  have hlow : spaceLow p.usedBytes d.imageSize p.totalBytes = true := by
    unfold spaceLow
    rw [Nat.mod_eq_of_lt hsum]
    exact (double_check_exact _ _ hT hsum).mpr (by omega)
  have hdev : (cacheImage p k d).dev = (cleanup p d).1 := by
    rw [cacheImage_cases, if_pos hrej]
    unfold afterSpaceCheck
    rw [if_pos hlow]
  have hok : (cacheImage p k d).ok = false := by
    rw [cacheImage_cases, if_pos hrej]
  refine ⟨hok, ?_, hdev, ?_, ?_, ?_⟩
  · rw [cacheImage_cleaned]
    exact hlow
  · intro q
    rw [hdev]
    exact cleanup_read_none p d hrm q
  · intro i hi
    rw [hdev, cleanup_entries, if_pos hi]
  · rw [hdev]
    exact (cleanup_frame p d).2.2

set_option maxRecDepth 8000 in
/-- C12, witness: with one blob stored, slot 0 valid and the cursor at 1, a
`cacheImage` with a null buffer at 95% usage returns false and leaves no
blob, slot 0 invalid and the cursor at 0. -/
theorem C12_rejected_store_evicts_witness :
    storedThenReleased.fs.pathExists (blobPath "20250109-0630") = true ∧
      (storedThenReleased.entries 0).valid = true ∧
      storedThenReleased.writeIndex = 1 ∧
      (cacheImage (Platform.sound 950 1000) "20250109-0700" storedThenReleased).ok = false ∧
      (cacheImage (Platform.sound 950 1000) "20250109-0700" storedThenReleased).dev.fs.read
        (blobPath "20250109-0630") = none ∧
      ((cacheImage (Platform.sound 950 1000) "20250109-0700" storedThenReleased).dev.entries
        0).valid = false ∧
      (cacheImage (Platform.sound 950 1000) "20250109-0700" storedThenReleased).dev.writeIndex
        = 0 := by
  have h := C12_rejected_store_evicts (Platform.sound 950 1000) "20250109-0700"
    storedThenReleased (by decide) (by decide) (by decide) (Or.inl rfl) (fun _ => rfl)
  exact ⟨by decide, by decide, by decide, h.1, h.2.2.2.1 _, h.2.2.2.2.1 0 (by decide),
    h.2.2.2.2.2⟩

end FlatEarth
